import Mathlib

/-!
# SimpleSurfaceComponent: material override controller

A shallow embedding of `Source/SimpleSurface/Private/SimpleSurfaceComponent.cpp`.

The controller (`USimpleSurfaceComponent`) is a record of its member fields. The host
engine is an explicit object store (`UWorld`): mesh components live at addresses, a
pointer is an address, and an address whose cell is empty (or lies outside the store)
is a pointer that no longer resolves. Every member function is a function on the
controller and the store; a call that aborts returns a `Fault`.
-/

namespace SimpleSurface

/-! ## Host engine objects -/

/-- Ways a call aborts: a `check(...)` whose condition is false, or a member access
through a pointer that does not resolve to an object. -/
inductive Fault where
  | checkFailed
  | nullDereference
  deriving DecidableEq

deriving instance DecidableEq for Except

/-- A `float`, carried by its bit pattern: the controller stores and forwards such
values and never computes with them. -/
abbrev float : Type := Nat

/-- An 8-bit-per-channel colour. -/
structure FColor where
  R : Nat
  G : Nat
  B : Nat
  A : Nat
  deriving DecidableEq

/-- A `UTexture` object, by address. -/
abbrev UTexture : Type := Nat

/-- A reflected class: its name and the names of its super classes. -/
structure UClass where
  Name : Nat
  SuperClasses : List Nat
  deriving DecidableEq

/-- Engine `UStruct::IsChildOf`: the class itself or one of its super classes; a null
base has no children. -/
def UClass.IsChildOf (c : UClass) (SomeBase : Option UClass) : Bool :=
  match SomeBase with
  | none => false
  | some b => c.Name == b.Name || c.SuperClasses.contains b.Name

/-- A material object as a mesh slot refers to it: the object's address and its class. -/
structure UMaterialInterface where
  ObjectId : Nat
  Class : UClass
  deriving DecidableEq

/-- Engine `UObject::IsA`. -/
def UMaterialInterface.IsA (m : UMaterialInterface) (SomeBase : Option UClass) : Bool :=
  m.Class.IsChildOf SomeBase

/-- Engine parameter write on a material instance: the entry of that name is
overwritten, or a new entry is added when there is none. -/
def SetParameterValue {V : Type} (Values : List (String × V)) (ParameterName : String)
    (Value : V) : List (String × V) :=
  match Values with
  | [] => [(ParameterName, Value)]
  | (n, v) :: rest =>
    if n = ParameterName then (n, Value) :: rest
    else (n, v) :: SetParameterValue rest ParameterName Value

/-- Engine parameter read on a material instance. -/
def GetParameterValue {V : Type} (Values : List (String × V)) (ParameterName : String) :
    Option V :=
  match Values with
  | [] => none
  | (n, v) :: rest => if n = ParameterName then some v else GetParameterValue rest ParameterName

/-- A dynamic material instance: its address, its outer object, its parent material and
its parameter overrides by name. The value given to `SetVectorParameterValue` is kept as
given (the engine's colour-space conversion of the argument is not part of the
embedding). -/
structure UMaterialInstanceDynamic where
  ObjectId : Nat
  Outer : Nat
  Parent : Option UMaterialInterface
  VectorParameterValues : List (String × FColor)
  ScalarParameterValues : List (String × float)
  TextureParameterValues : List (String × Option UTexture)
  deriving DecidableEq

/-- The class `UMaterialInstanceDynamic` (a `UMaterialInstance`, a `UMaterialInterface`). -/
def UMaterialInstanceDynamic.StaticClass : UClass := { Name := 2, SuperClasses := [1, 0] }

/-- The instance as a mesh slot refers to it. -/
def UMaterialInstanceDynamic.Get (m : UMaterialInstanceDynamic) : UMaterialInterface :=
  { ObjectId := m.ObjectId, Class := UMaterialInstanceDynamic.StaticClass }

def UMaterialInstanceDynamic.SetVectorParameterValue (m : UMaterialInstanceDynamic)
    (ParameterName : String) (Value : FColor) : UMaterialInstanceDynamic :=
  { m with VectorParameterValues := SetParameterValue m.VectorParameterValues ParameterName Value }

def UMaterialInstanceDynamic.SetScalarParameterValue (m : UMaterialInstanceDynamic)
    (ParameterName : String) (Value : float) : UMaterialInstanceDynamic :=
  { m with ScalarParameterValues := SetParameterValue m.ScalarParameterValues ParameterName Value }

def UMaterialInstanceDynamic.SetTextureParameterValue (m : UMaterialInstanceDynamic)
    (ParameterName : String) (Value : Option UTexture) : UMaterialInstanceDynamic :=
  { m with TextureParameterValues := SetParameterValue m.TextureParameterValues ParameterName Value }

/-- A mesh component: the actor it belongs to, the materials of its mesh asset (one per
material slot, null where the asset assigns none) and its override materials. -/
structure UMeshComponent where
  Owner : Option Nat
  MeshMaterials : List (Option UMaterialInterface)
  OverrideMaterials : List (Option UMaterialInterface)
  deriving DecidableEq

def UMeshComponent.GetNumMaterials (m : UMeshComponent) : Nat := m.MeshMaterials.length

/-- Engine `GetMaterial`: the override of the slot when there is a non-null one, else the
mesh asset's material of the slot; null (`none`) when neither exists. -/
def UMeshComponent.GetMaterial (m : UMeshComponent) (ElementIndex : Nat) :
    Option UMaterialInterface :=
  match m.OverrideMaterials[ElementIndex]? with
  | some (some Material) => some Material
  | _ => (m.MeshMaterials[ElementIndex]?).join

/-- Engine `SetMaterial`: the override array is grown with nulls up to the slot, then the
slot is written. -/
def UMeshComponent.SetMaterial (m : UMeshComponent) (ElementIndex : Nat)
    (Material : Option UMaterialInterface) : UMeshComponent :=
  let Grown := m.OverrideMaterials ++
    List.replicate (ElementIndex + 1 - m.OverrideMaterials.length) none
  { m with OverrideMaterials := Grown.set ElementIndex Material }

def UMeshComponent.EmptyOverrideMaterials (m : UMeshComponent) : UMeshComponent :=
  { m with OverrideMaterials := [] }

def UMeshComponent.HasOverrideMaterials (m : UMeshComponent) : Bool :=
  !m.OverrideMaterials.isEmpty

/-- The object store: the mesh components by address (`none`: destroyed), and the
address the next created object gets. -/
structure UWorld where
  MeshComponents : List (Option UMeshComponent)
  NextObjectId : Nat
  deriving DecidableEq

/-- Pointer resolution (`TObjectPtr::Get`): the object at the address, if it exists. -/
def UWorld.Resolve (w : UWorld) (Ptr : Nat) : Option UMeshComponent :=
  (w.MeshComponents[Ptr]?).join

/-- A write through a resolved pointer. -/
def UWorld.Store (w : UWorld) (Ptr : Nat) (m : UMeshComponent) : UWorld :=
  { w with MeshComponents := w.MeshComponents.set Ptr (some m) }

/-- Engine `AActor::GetComponents<UMeshComponent>`: the addresses of the live mesh
components of the actor, in store order. -/
def UWorld.GetComponents (w : UWorld) (Actor : Nat) : List Nat :=
  (List.range w.MeshComponents.length).filter fun Ptr =>
    match w.Resolve Ptr with
    | some m => m.Owner == some Actor
    | none => false

/-- Engine `UMaterialInstanceDynamic::Create`: a new object with the given parent and
outer and no parameter overrides. -/
def UMaterialInstanceDynamic.Create (ParentMaterial : Option UMaterialInterface) (InOuter : Nat)
    (w : UWorld) : UMaterialInstanceDynamic × UWorld :=
  ({ ObjectId := w.NextObjectId, Outer := InOuter, Parent := ParentMaterial,
     VectorParameterValues := [], ScalarParameterValues := [], TextureParameterValues := [] },
   { w with NextObjectId := w.NextObjectId + 1 })

/-- Engine `TMap`: an association list with at most one entry per key. -/
abbrev TMap (K V : Type) : Type := List (K × V)

def TMap.Find {K V : Type} [DecidableEq K] (Map : TMap K V) (Key : K) : Option V :=
  match Map with
  | [] => none
  | (k, v) :: rest => if k = Key then some v else TMap.Find rest Key

/-- Engine `TMap::Add`: the value of an existing key is replaced, a new key is appended. -/
def TMap.Add {K V : Type} [DecidableEq K] (Map : TMap K V) (Key : K) (Value : V) : TMap K V :=
  match Map with
  | [] => [(Key, Value)]
  | (k, v) :: rest => if k = Key then (k, Value) :: rest else (k, v) :: TMap.Add rest Key Value

def TMap.Remove {K V : Type} [DecidableEq K] (Map : TMap K V) (Key : K) : TMap K V :=
  Map.filter fun e => e.1 ≠ Key

def TMap.GetKeys {K V : Type} (Map : TMap K V) : List K := Map.map Prod.fst

/-! ## The catalog record -/

/-- Modelled from the spec: `FMeshCatalogRecord` is declared and defined outside this
source file. The spec's MeshSlotRecord: "for one mesh component, the ordered mapping from
material-slot index to the material that was present before the override was applied". -/
structure FMeshCatalogRecord where
  MaterialsBySlot : TMap Nat (Option UMaterialInterface)
  deriving DecidableEq

/-- Modelled from the spec: the constructor `FMeshCatalogRecord(MeshComponent, Classes)`,
missing from the source. It "records its current per-slot materials (excluding any slot
already showing the override material) as the restore baseline": every slot whose material
is of none of the given classes is recorded with its material. -/
def FMeshCatalogRecord.Construct (MeshComponent : UMeshComponent)
    (ClassesToIgnore : List (Option UClass)) : FMeshCatalogRecord :=
  { MaterialsBySlot := (List.range MeshComponent.GetNumMaterials).filterMap fun i =>
      match MeshComponent.GetMaterial i with
      | some Material =>
        if ClassesToIgnore.any Material.IsA then none else some (i, some Material)
      | none => some (i, none) }

/-- Modelled from the spec: `FMeshCatalogRecord::ApplyMaterials`, missing from the source.
It "re-applies the catalog's recorded original materials slot-by-slot". -/
def FMeshCatalogRecord.ApplyMaterials (Record : FMeshCatalogRecord)
    (MeshComponent : UMeshComponent) : UMeshComponent :=
  Record.MaterialsBySlot.foldl (fun m e => m.SetMaterial e.1 e.2) MeshComponent

/-! ## The controller -/

/-- The member fields of `USimpleSurfaceComponent` that the source file reads or writes,
with `This` the component's own address and `Owner` what `GetOwner()` returns. -/
structure USimpleSurfaceComponent where
  This : Nat
  Owner : Option Nat
  BaseMaterial : Option UMaterialInterface
  Color : FColor
  Glow : float
  ShininessRoughness : float
  WaxinessMetalness : float
  Texture : Option UTexture
  TextureIntensity : float
  TextureScale : float
  SimpleSurfaceMaterial : Option UMaterialInstanceDynamic
  CapturedMeshCatalog : TMap Nat FMeshCatalogRecord
  CapturedMeshComponentCount : Int
  deriving DecidableEq

/-- The per-component slot records of `CreateComponentMaterialMap` and
`UpdateComponentMaterialMap`. -/
abbrev ComponentMaterialMap : Type := TMap Nat (TMap Nat (Option UMaterialInterface))

namespace USimpleSurfaceComponent

/-- The value of `SimpleSurfaceMaterial.GetClass()`: null for a null pointer. -/
def SimpleSurfaceMaterialClass (c : USimpleSurfaceComponent) : Option UClass :=
  c.SimpleSurfaceMaterial.map fun _ => UMaterialInstanceDynamic.StaticClass

def ApplyParametersToMaterial (c : USimpleSurfaceComponent) :
    Except Fault USimpleSurfaceComponent :=
  match c.SimpleSurfaceMaterial with
  | none => .error .checkFailed
  | some m =>
    let m := m.SetVectorParameterValue "Color" c.Color
    let m := m.SetScalarParameterValue "Glow" c.Glow
    let m := m.SetScalarParameterValue "Waxiness / Metalness" c.WaxinessMetalness
    let m := m.SetScalarParameterValue "Shininess / Roughness" c.ShininessRoughness
    let m := m.SetTextureParameterValue "Texture" c.Texture
    let m := m.SetScalarParameterValue "Texture Intensity" c.TextureIntensity
    let m := m.SetScalarParameterValue "Texture Scale" c.TextureScale
    .ok { c with SimpleSurfaceMaterial := some m }

def SetParameter_Color (c : USimpleSurfaceComponent) (InColor : FColor) :
    Except Fault USimpleSurfaceComponent :=
  ApplyParametersToMaterial { c with Color := InColor }

def SetParameter_Glow (c : USimpleSurfaceComponent) (InGlow : float) :
    Except Fault USimpleSurfaceComponent :=
  ApplyParametersToMaterial { c with Glow := InGlow }

def SetParameter_ShininessRoughness (c : USimpleSurfaceComponent) (InValue : float) :
    Except Fault USimpleSurfaceComponent :=
  ApplyParametersToMaterial { c with ShininessRoughness := InValue }

def SetParameter_WaxinessMetalness (c : USimpleSurfaceComponent) (InValue : float) :
    Except Fault USimpleSurfaceComponent :=
  ApplyParametersToMaterial { c with WaxinessMetalness := InValue }

def SetParameter_Texture (c : USimpleSurfaceComponent) (InTexture : Option UTexture) :
    Except Fault USimpleSurfaceComponent :=
  ApplyParametersToMaterial { c with Texture := InTexture }

def SetParameter_TextureIntensity (c : USimpleSurfaceComponent) (InValue : float) :
    Except Fault USimpleSurfaceComponent :=
  ApplyParametersToMaterial { c with TextureIntensity := InValue }

def SetParameter_TextureScale (c : USimpleSurfaceComponent) (InValue : float) :
    Except Fault USimpleSurfaceComponent :=
  ApplyParametersToMaterial { c with TextureScale := InValue }

/-- The inner loop of `ApplyMaterialToMeshes`: every slot of one component. -/
def ApplyMaterialToMeshes.slots (Material : UMaterialInterface) (m : UMeshComponent) :
    UMeshComponent :=
  (List.range m.GetNumMaterials).foldl (fun acc i => acc.SetMaterial i (some Material)) m

/-- The outer loop of `ApplyMaterialToMeshes`, over the enumerated pointers. -/
def ApplyMaterialToMeshes.loop (Material : UMaterialInterface) :
    List Nat → UWorld → Except Fault UWorld
  | [], w => .ok w
  | MeshComponent :: rest, w =>
    match w.Resolve MeshComponent with
    | none => .error .nullDereference
    | some m =>
      ApplyMaterialToMeshes.loop Material rest
        (w.Store MeshComponent (ApplyMaterialToMeshes.slots Material m))

def ApplyMaterialToMeshes (c : USimpleSurfaceComponent) (w : UWorld) : Except Fault UWorld :=
  match c.Owner with
  | none => .ok w
  | some Actor =>
    let MeshComponents := w.GetComponents Actor
    match c.SimpleSurfaceMaterial with
    | none => .error .checkFailed
    | some Material => ApplyMaterialToMeshes.loop Material.Get MeshComponents w

def ApplyAll (c : USimpleSurfaceComponent) (w : UWorld) :
    Except Fault (USimpleSurfaceComponent × UWorld) :=
  match c.SimpleSurfaceMaterial with
  | some _ => do
    let c ← c.ApplyParametersToMaterial
    let w ← c.ApplyMaterialToMeshes w
    pure (c, w)
  | none => pure (c, w)

def InitializeSharedMID (c : USimpleSurfaceComponent) (w : UWorld) :
    USimpleSurfaceComponent × UWorld :=
  let Stale : Bool :=
    match c.SimpleSurfaceMaterial with
    | none => true
    | some m => m.Outer != c.This
  if Stale then
    let Created := UMaterialInstanceDynamic.Create c.BaseMaterial c.This w
    ({ c with SimpleSurfaceMaterial := some Created.1 }, Created.2)
  else (c, w)

/-- The loop "Add new components" of `UpdateComponentMaterialMap`. -/
def UpdateComponentMaterialMap.addNew (w : UWorld) :
    List Nat → ComponentMaterialMap → Except Fault ComponentMaterialMap
  | [], InOutMap => .ok InOutMap
  | NewComponent :: rest, InOutMap =>
    match w.Resolve NewComponent with
    | none => .error .nullDereference
    | some m =>
      let MaterialsBySlot : TMap Nat (Option UMaterialInterface) :=
        (List.range m.GetNumMaterials).foldl (fun acc i => TMap.Add acc i (m.GetMaterial i)) []
      UpdateComponentMaterialMap.addNew w rest (TMap.Add InOutMap NewComponent MaterialsBySlot)

/-- The slot loop of "Update existing components": `ExistingMaterial->IsA(...)` is a call
through the material pointer. -/
def UpdateComponentMaterialMap.slots (Class : Option UClass) (m : UMeshComponent) :
    List Nat → TMap Nat (Option UMaterialInterface) →
      Except Fault (TMap Nat (Option UMaterialInterface))
  | [], MaterialsBySlot => .ok MaterialsBySlot
  | i :: rest, MaterialsBySlot =>
    match m.GetMaterial i with
    | none => .error .nullDereference
    | some ExistingMaterial =>
      if !ExistingMaterial.IsA Class then
        UpdateComponentMaterialMap.slots Class m rest
          (TMap.Add MaterialsBySlot i (some ExistingMaterial))
      else UpdateComponentMaterialMap.slots Class m rest MaterialsBySlot

/-- The loop "Update existing components" of `UpdateComponentMaterialMap`. -/
def UpdateComponentMaterialMap.updateExisting (Class : Option UClass) (w : UWorld) :
    List Nat → ComponentMaterialMap → Except Fault ComponentMaterialMap
  | [], InOutMap => .ok InOutMap
  | ExistingComponent :: rest, InOutMap =>
    match w.Resolve ExistingComponent with
    | none => .error .nullDereference
    | some m =>
      match UpdateComponentMaterialMap.slots Class m (List.range m.GetNumMaterials) [] with
      | .error e => .error e
      | .ok MaterialsBySlot =>
        UpdateComponentMaterialMap.updateExisting Class w rest
          (TMap.Add InOutMap ExistingComponent MaterialsBySlot)

def UpdateComponentMaterialMap (c : USimpleSurfaceComponent) (w : UWorld)
    (InOutMap : ComponentMaterialMap) : Except Fault ComponentMaterialMap :=
  match c.Owner with
  | none => .ok InOutMap
  | some Actor =>
    let CurrentComponentsSet := w.GetComponents Actor
    let OldKeys := TMap.GetKeys InOutMap
    let NewComponents := CurrentComponentsSet.filter fun x => !OldKeys.contains x
    let MissingComponents := OldKeys.filter fun x => !CurrentComponentsSet.contains x
    let ExistingComponents := CurrentComponentsSet.filter fun x => OldKeys.contains x
    match UpdateComponentMaterialMap.addNew w NewComponents InOutMap with
    | .error e => .error e
    | .ok InOutMap =>
      let InOutMap := MissingComponents.foldl (fun acc x => TMap.Remove acc x) InOutMap
      UpdateComponentMaterialMap.updateExisting c.SimpleSurfaceMaterialClass w
        ExistingComponents InOutMap

/-- The loop of `CaptureMaterials` over the enumerated pointers. `UpdateRecord` stands for
`FMeshCatalogRecord::UpdateRecord`, which is defined outside this source file: the record
of a catalogued component is replaced by whatever that function makes of it. As the spec
has it, capture only records: neither `UpdateRecord` nor the constructor of the record
changes the mesh component it is given. -/
def CaptureMaterials.loop (UpdateRecord : FMeshCatalogRecord → UMeshComponent → FMeshCatalogRecord)
    (Class : Option UClass) (w : UWorld) :
    List Nat → TMap Nat FMeshCatalogRecord → TMap Nat FMeshCatalogRecord
  | [], Catalog => Catalog
  | MeshComponent :: rest, Catalog =>
    match w.Resolve MeshComponent with
    | none => CaptureMaterials.loop UpdateRecord Class w rest (TMap.Remove Catalog MeshComponent)
    | some m =>
      match TMap.Find Catalog MeshComponent with
      | some FoundCatalogRecord =>
        CaptureMaterials.loop UpdateRecord Class w rest
          (TMap.Add Catalog MeshComponent (UpdateRecord FoundCatalogRecord m))
      | none =>
        CaptureMaterials.loop UpdateRecord Class w rest
          (TMap.Add Catalog MeshComponent (FMeshCatalogRecord.Construct m [Class]))

def CaptureMaterials (UpdateRecord : FMeshCatalogRecord → UMeshComponent → FMeshCatalogRecord)
    (c : USimpleSurfaceComponent) (w : UWorld) : USimpleSurfaceComponent :=
  match c.Owner, c.SimpleSurfaceMaterial with
  | some Actor, some _ =>
    let AllMeshComponents := w.GetComponents Actor
    { c with CapturedMeshCatalog := CaptureMaterials.loop UpdateRecord
                                      c.SimpleSurfaceMaterialClass w AllMeshComponents
                                      c.CapturedMeshCatalog }
  | _, _ => c

/-- The loop of `TryRestoreMaterials` over the catalog entries. The first statement of the
body calls `EmptyOverrideMaterials` through the key; only afterwards is the key tested
with `Get()`. -/
def TryRestoreMaterials.loop :
    List (Nat × FMeshCatalogRecord) → USimpleSurfaceComponent → UWorld →
      Except Fault (USimpleSurfaceComponent × UWorld)
  | [], c, w => .ok (c, w)
  | (MeshComponent, CatalogRecord) :: rest, c, w =>
    match w.Resolve MeshComponent with
    | none => .error .nullDereference
    | some m =>
      let w := w.Store MeshComponent m.EmptyOverrideMaterials
      match w.Resolve MeshComponent with
      | some SafeComponent =>
        TryRestoreMaterials.loop rest c
          (w.Store MeshComponent (CatalogRecord.ApplyMaterials SafeComponent))
      | none =>
        TryRestoreMaterials.loop rest
          { c with CapturedMeshCatalog := TMap.Remove c.CapturedMeshCatalog MeshComponent } w

def TryRestoreMaterials (c : USimpleSurfaceComponent) (w : UWorld) :
    Except Fault (USimpleSurfaceComponent × UWorld) :=
  match c.Owner with
  | none => .ok (c, w)
  | some _ => TryRestoreMaterials.loop c.CapturedMeshCatalog c w

/-- The slot loop of `MonitorForChanges`: whether it leaves through `break`, that is
whether some slot holds a material that is not of the class. `GetMaterial(i)->IsA(...)`
is a call through the material pointer. -/
def MonitorForChanges.slots (Class : Option UClass) (m : UMeshComponent) :
    List Nat → Except Fault Bool
  | [] => .ok false
  | i :: rest =>
    match m.GetMaterial i with
    | none => .error .nullDereference
    | some Material =>
      if !Material.IsA Class then .ok true else MonitorForChanges.slots Class m rest

/-- The component loop of `MonitorForChanges`, from the current value of
`bChangeOccurred`. -/
def MonitorForChanges.loop (Class : Option UClass) (w : UWorld) :
    List Nat → Bool → Except Fault Bool
  | [], bChangeOccurred => .ok bChangeOccurred
  | Component :: rest, bChangeOccurred =>
    match w.Resolve Component with
    | none => .error .nullDereference
    | some m =>
      if !m.HasOverrideMaterials then MonitorForChanges.loop Class w rest bChangeOccurred
      else
        match MonitorForChanges.slots Class m (List.range m.GetNumMaterials) with
        | .error e => .error e
        | .ok Found =>
          if bChangeOccurred || Found then .ok true
          else MonitorForChanges.loop Class w rest false

/-- `MonitorForChanges`. The two counts are `int32` values; the number of components of
an actor is below the `int32` range, so the comparison is that of the integers. -/
def MonitorForChanges (c : USimpleSurfaceComponent) (_bForceUpdate : Bool) (w : UWorld) :
    Except Fault (Bool × USimpleSurfaceComponent) :=
  match c.Owner with
  | none => .ok (false, c)
  | some Actor =>
    let CurrentMeshComponents := w.GetComponents Actor
    let CurrentMeshComponentCount : Int := CurrentMeshComponents.length
    let Counted : Bool × USimpleSurfaceComponent :=
      if CurrentMeshComponentCount ≠ c.CapturedMeshComponentCount then
        (true, { c with CapturedMeshComponentCount := CurrentMeshComponentCount })
      else (false, c)
    match MonitorForChanges.loop c.SimpleSurfaceMaterialClass w CurrentMeshComponents
        Counted.1 with
    | .error e => .error e
    | .ok bChangeOccurred => .ok (bChangeOccurred, Counted.2)

/-- `Activate`; the base class call changes nothing the embedding holds. -/
def Activate (UpdateRecord : FMeshCatalogRecord → UMeshComponent → FMeshCatalogRecord)
    (c : USimpleSurfaceComponent) (w : UWorld) :
    Except Fault (USimpleSurfaceComponent × UWorld) :=
  (c.CaptureMaterials UpdateRecord w).ApplyAll w

/-- `Deactivate`; the base class call changes nothing the embedding holds. -/
def Deactivate (c : USimpleSurfaceComponent) (w : UWorld) :
    Except Fault (USimpleSurfaceComponent × UWorld) :=
  c.TryRestoreMaterials w

def OnRegister (UpdateRecord : FMeshCatalogRecord → UMeshComponent → FMeshCatalogRecord)
    (c : USimpleSurfaceComponent) (w : UWorld) :
    Except Fault (USimpleSurfaceComponent × UWorld) :=
  let Initialized := c.InitializeSharedMID w
  let c := Initialized.1
  let w := Initialized.2
  match c.Owner with
  | none => .ok (c, w)
  | some _ =>
    let c := c.CaptureMaterials UpdateRecord w
    match c.MonitorForChanges true w with
    | .error e => .error e
    | .ok Monitored => Monitored.2.ApplyAll w

/-- `TickComponent`; `MonitorForChanges()` is called without an argument, its default
being declared in the header (the body of `MonitorForChanges` never reads it). -/
def TickComponent (UpdateRecord : FMeshCatalogRecord → UMeshComponent → FMeshCatalogRecord)
    (c : USimpleSurfaceComponent) (w : UWorld) :
    Except Fault (USimpleSurfaceComponent × UWorld) :=
  match c.ApplyParametersToMaterial with
  | .error e => .error e
  | .ok c =>
    match c.MonitorForChanges false w with
    | .error e => .error e
    | .ok Monitored =>
      if Monitored.1 then (Monitored.2.CaptureMaterials UpdateRecord w).ApplyAll w
      else .ok (Monitored.2, w)

/-- `DestroyComponent`; the base class call changes nothing the embedding holds. -/
def DestroyComponent (c : USimpleSurfaceComponent) (w : UWorld) :
    Except Fault (USimpleSurfaceComponent × UWorld) :=
  c.TryRestoreMaterials w

end USimpleSurfaceComponent

/-! ## Call sequences -/

/-- One call of one of the seven parameter setters, with its argument. -/
inductive SetterCall where
  | Color (InColor : FColor)
  | Glow (InGlow : float)
  | ShininessRoughness (InValue : float)
  | WaxinessMetalness (InValue : float)
  | Texture (InTexture : Option UTexture)
  | TextureIntensity (InValue : float)
  | TextureScale (InValue : float)
  deriving DecidableEq

/-- The call made on a controller. -/
def SetterCall.invoke (c : USimpleSurfaceComponent) :
    SetterCall → Except Fault USimpleSurfaceComponent
  | .Color InColor => c.SetParameter_Color InColor
  | .Glow InGlow => c.SetParameter_Glow InGlow
  | .ShininessRoughness InValue => c.SetParameter_ShininessRoughness InValue
  | .WaxinessMetalness InValue => c.SetParameter_WaxinessMetalness InValue
  | .Texture InTexture => c.SetParameter_Texture InTexture
  | .TextureIntensity InValue => c.SetParameter_TextureIntensity InValue
  | .TextureScale InValue => c.SetParameter_TextureScale InValue

/-- A sequence of setter calls, one after the other; an abort ends the sequence. -/
def CallSetters (c : USimpleSurfaceComponent) :
    List SetterCall → Except Fault USimpleSurfaceComponent
  | [] => .ok c
  | Call :: rest =>
    match Call.invoke c with
    | .error e => .error e
    | .ok c => CallSetters c rest

/-- The override material's seven named parameters are the controller's seven fields. -/
def MaterialShowsFields (c : USimpleSurfaceComponent) : Prop :=
  ∃ m, c.SimpleSurfaceMaterial = some m ∧
    GetParameterValue m.VectorParameterValues "Color" = some c.Color ∧
    GetParameterValue m.ScalarParameterValues "Glow" = some c.Glow ∧
    GetParameterValue m.ScalarParameterValues "Shininess / Roughness" =
      some c.ShininessRoughness ∧
    GetParameterValue m.ScalarParameterValues "Waxiness / Metalness" =
      some c.WaxinessMetalness ∧
    GetParameterValue m.TextureParameterValues "Texture" = some c.Texture ∧
    GetParameterValue m.ScalarParameterValues "Texture Intensity" = some c.TextureIntensity ∧
    GetParameterValue m.ScalarParameterValues "Texture Scale" = some c.TextureScale

/-- The seven parameter fields of a controller, in the order of the setters. -/
def ParameterFields (c : USimpleSurfaceComponent) :
    FColor × float × float × float × Option UTexture × float × float :=
  (c.Color, c.Glow, c.ShininessRoughness, c.WaxinessMetalness, c.Texture,
    c.TextureIntensity, c.TextureScale)

/-! ## Concrete states -/

namespace Example

/-- A plain (non-dynamic) material object at the given address. -/
def Plain (ObjectId : Nat) : UMaterialInterface :=
  { ObjectId := ObjectId, Class := { Name := 3, SuperClasses := [1, 0] } }

/-- The override instance of the controller at address 1. -/
def Override : UMaterialInstanceDynamic :=
  { ObjectId := 7, Outer := 1, Parent := some (Plain 9), VectorParameterValues := [],
    ScalarParameterValues := [], TextureParameterValues := [] }

/-- A controller at address 1 on actor 0, with its override instance, an empty catalog
and a count snapshot of 0. -/
def Controller : USimpleSurfaceComponent :=
  { This := 1, Owner := some 0, BaseMaterial := some (Plain 9),
    Color := { R := 255, G := 255, B := 255, A := 255 }, Glow := 0, ShininessRoughness := 0,
    WaxinessMetalness := 0, Texture := none, TextureIntensity := 0, TextureScale := 0,
    SimpleSurfaceMaterial := some Override, CapturedMeshCatalog := [],
    CapturedMeshComponentCount := 0 }

/-- `UpdateRecord` taken as keeping the record. -/
def KeepRecord : FMeshCatalogRecord → UMeshComponent → FMeshCatalogRecord := fun Record _ => Record

/-- Mesh component A of actor 0: slots `[m0, m1]`, no override in place. -/
def ComponentA : UMeshComponent :=
  { Owner := some 0, MeshMaterials := [some (Plain 10), some (Plain 11)],
    OverrideMaterials := [] }

/-- Mesh component B of actor 0: slot `[m2]`, no override in place. -/
def ComponentB : UMeshComponent :=
  { Owner := some 0, MeshMaterials := [some (Plain 12)], OverrideMaterials := [] }

/-- The actor of the round trip: component A at address 0 and component B at address 1. -/
def World : UWorld :=
  { MeshComponents := [some ComponentA, some ComponentB], NextObjectId := 100 }

/-- A controller with neither an owner nor an override instance. -/
def Unowned : USimpleSurfaceComponent :=
  { Controller with Owner := none, SimpleSurfaceMaterial := none }

/-- The controller with a catalog entry for the component at address 5, which `World`
does not hold (it has been destroyed). -/
def StaleCatalog : USimpleSurfaceComponent :=
  { Controller with CapturedMeshCatalog := [(5, { MaterialsBySlot := [(0, some (Plain 13))] })] }

/-- An actor with one mesh component, whose only slot shows the override instance of the
controller. -/
def OverriddenWorld : UWorld :=
  { MeshComponents :=
      [some { Owner := some 0, MeshMaterials := [some (Plain 10)],
              OverrideMaterials := [some Override.Get] }],
    NextObjectId := 100 }

/-- The override instance of another controller (at address 2). -/
def Foreign : UMaterialInstanceDynamic :=
  { ObjectId := 8, Outer := 2, Parent := some (Plain 9), VectorParameterValues := [],
    ScalarParameterValues := [], TextureParameterValues := [] }

/-- An actor with one mesh component, whose only slot shows that foreign dynamic
material. -/
def ForeignWorld : UWorld :=
  { MeshComponents :=
      [some { Owner := some 0, MeshMaterials := [some (Plain 10)],
              OverrideMaterials := [some Foreign.Get] }],
    NextObjectId := 100 }

/-- The controller with a count snapshot of 1. -/
def Counted : USimpleSurfaceComponent :=
  { Controller with CapturedMeshComponentCount := 1 }

/-- A mesh component whose mesh now has two slots, only the first of which is covered by
the override instance. -/
def SwappedComponent : UMeshComponent :=
  { Owner := some 0, MeshMaterials := [some (Plain 10), some (Plain 11)],
    OverrideMaterials := [some Override.Get] }

/-- An actor with the swapped component as its one mesh component. -/
def SwappedWorld : UWorld :=
  { MeshComponents := [some SwappedComponent], NextObjectId := 100 }

/-- An actor with one mesh component whose mesh assigns no material to slot 0 and whose
slot 1 carries a user override. -/
def NullSlotWorld : UWorld :=
  { MeshComponents :=
      [some { Owner := some 0, MeshMaterials := [none, some (Plain 11)],
              OverrideMaterials := [none, some (Plain 14)] }],
    NextObjectId := 100 }

/-- A controller at address 3 duplicated from the controller at address 1: it still holds
the override instance whose outer is the controller at address 1. -/
def Duplicate : USimpleSurfaceComponent :=
  { Controller with This := 3 }

end Example

/-! ## Theorems -/

open USimpleSurfaceComponent

/-! ### Pointers and the store -/

theorem Resolve_Store_ne (w : UWorld) (p q : Nat) (x : UMeshComponent) (h : q ≠ p) :
    (w.Store p x).Resolve q = w.Resolve q := by
  simp [UWorld.Resolve, UWorld.Store, List.getElem?_set_ne (Ne.symm h)]

theorem Resolve_lt (w : UWorld) (p : Nat) (m : UMeshComponent) (h : w.Resolve p = some m) :
    p < w.MeshComponents.length := by
  by_contra hlt
  have : w.MeshComponents[p]? = none := List.getElem?_eq_none (Nat.le_of_not_lt hlt)
  simp [UWorld.Resolve, this] at h

theorem Resolve_Store_self (w : UWorld) (p : Nat) (m x : UMeshComponent)
    (h : w.Resolve p = some m) : (w.Store p x).Resolve p = some x := by
  have hlt := Resolve_lt w p m h
  simp [UWorld.Resolve, UWorld.Store, List.getElem?_set_self, hlt]

theorem mem_GetComponents (w : UWorld) (Actor p : Nat) :
    p ∈ w.GetComponents Actor ↔ ∃ m, w.Resolve p = some m ∧ m.Owner = some Actor := by
  simp only [UWorld.GetComponents, List.mem_filter, List.mem_range]
  constructor
  · rintro ⟨-, h⟩
    cases hr : w.Resolve p with
    | none => simp [hr] at h
    | some m =>
      simp only [hr, beq_iff_eq] at h
      exact ⟨m, rfl, h⟩
  · rintro ⟨m, hr, ho⟩
    exact ⟨Resolve_lt w p m hr, by simp [hr, ho]⟩

theorem GetComponents_nodup (w : UWorld) (Actor : Nat) : (w.GetComponents Actor).Nodup :=
  (List.nodup_range _).filter _

theorem GetComponents_congr (w w2 : UWorld) (Actor : Nat)
    (hlen : w2.MeshComponents.length = w.MeshComponents.length)
    (h : ∀ p, (w2.Resolve p).map (fun m => m.Owner) = (w.Resolve p).map (fun m => m.Owner)) :
    w2.GetComponents Actor = w.GetComponents Actor := by
  simp only [UWorld.GetComponents, hlen]
  apply List.filter_congr
  intro p _
  have hp := h p
  cases h1 : w.Resolve p with
  | none =>
    cases h2 : w2.Resolve p with
    | none => rfl
    | some m2 => simp [h1, h2] at hp
  | some m =>
    cases h2 : w2.Resolve p with
    | none => simp [h1, h2] at hp
    | some m2 =>
      simp only [h1, h2, Option.map_some', Option.some.injEq] at hp
      simp [hp]

/-! ### Material slots -/

theorem SetMaterial_Owner (m : UMeshComponent) (j : Nat) (x : Option UMaterialInterface) :
    (m.SetMaterial j x).Owner = m.Owner := rfl

theorem SetMaterial_MeshMaterials (m : UMeshComponent) (j : Nat)
    (x : Option UMaterialInterface) : (m.SetMaterial j x).MeshMaterials = m.MeshMaterials := rfl

theorem SetMaterial_self (m : UMeshComponent) (j : Nat) (x : Option UMaterialInterface) :
    (m.SetMaterial j x).OverrideMaterials[j]? = some x := by
  simp only [UMeshComponent.SetMaterial]
  rw [List.getElem?_set_self]
  simp only [List.length_append, List.length_replicate]
  omega

theorem SetMaterial_other (m : UMeshComponent) (i j : Nat) (x y : Option UMaterialInterface)
    (hne : i ≠ j) (h : m.OverrideMaterials[i]? = some y) :
    (m.SetMaterial j x).OverrideMaterials[i]? = some y := by
  simp only [UMeshComponent.SetMaterial]
  rw [List.getElem?_set_ne (Ne.symm hne)]
  have hlt : i < m.OverrideMaterials.length := by
    by_contra hc
    rw [List.getElem?_eq_none (Nat.le_of_not_lt hc)] at h
    cases h
  rw [List.getElem?_append_left hlt]
  exact h

/-- Writing the slots `0 .. n-1` in turn, slot `i` with `g i`. -/
theorem foldl_SetMaterial_range (g : Nat → Option UMaterialInterface) (n : Nat)
    (m : UMeshComponent) :
    ((List.range n).foldl (fun acc i => acc.SetMaterial i (g i)) m).Owner = m.Owner ∧
    ((List.range n).foldl (fun acc i => acc.SetMaterial i (g i)) m).MeshMaterials =
      m.MeshMaterials ∧
    ∀ i, i < n →
      ((List.range n).foldl (fun acc i => acc.SetMaterial i (g i)) m).OverrideMaterials[i]? =
        some (g i) := by
  induction n with
  | zero => simp
  | succ k ih =>
    rw [List.range_succ, List.foldl_append]
    simp only [List.foldl_cons, List.foldl_nil, SetMaterial_Owner, SetMaterial_MeshMaterials]
    refine ⟨ih.1, ih.2.1, ?_⟩
    intro i hi
    by_cases hik : i = k
    · subst hik
      exact SetMaterial_self _ _ _
    · exact SetMaterial_other _ _ _ _ _ hik (ih.2.2 i (by omega))

theorem GetMaterial_of_override (m : UMeshComponent) (i : Nat) (x : UMaterialInterface)
    (h : m.OverrideMaterials[i]? = some (some x)) : m.GetMaterial i = some x := by
  simp [UMeshComponent.GetMaterial, h]

theorem slots_spec (Material : UMaterialInterface) (m : UMeshComponent) :
    (ApplyMaterialToMeshes.slots Material m).Owner = m.Owner ∧
    (ApplyMaterialToMeshes.slots Material m).GetNumMaterials = m.GetNumMaterials ∧
    ∀ i, i < m.GetNumMaterials →
      (ApplyMaterialToMeshes.slots Material m).GetMaterial i = some Material := by
  have h := foldl_SetMaterial_range (fun _ => some Material) m.GetNumMaterials m
  refine ⟨h.1, ?_, ?_⟩
  · exact congrArg List.length h.2.1
  · intro i hi
    exact GetMaterial_of_override _ _ _ (h.2.2 i hi)

/-! ### ApplyMaterialToMeshes -/

theorem ApplyMaterialToMeshes_loop_spec (Material : UMaterialInterface) (ps : List Nat)
    (w : UWorld) (hres : ∀ p ∈ ps, ∃ m, w.Resolve p = some m) (hnd : ps.Nodup) :
    ∃ w2, ApplyMaterialToMeshes.loop Material ps w = .ok w2 ∧
      w2.MeshComponents.length = w.MeshComponents.length ∧
      w2.NextObjectId = w.NextObjectId ∧
      (∀ p, p ∉ ps → w2.Resolve p = w.Resolve p) ∧
      (∀ p ∈ ps, ∀ m, w.Resolve p = some m →
        w2.Resolve p = some (ApplyMaterialToMeshes.slots Material m)) := by
  induction ps generalizing w with
  | nil => exact ⟨w, rfl, rfl, rfl, fun _ _ => rfl, fun p hp => by simp at hp⟩
  | cons q rest ih =>
    obtain ⟨mq, hq⟩ := hres q (List.mem_cons_self _ _)
    have hqrest : q ∉ rest := (List.nodup_cons.mp hnd).1
    have hres2 : ∀ p ∈ rest, ∃ m,
        (w.Store q (ApplyMaterialToMeshes.slots Material mq)).Resolve p = some m := by
      intro p hp
      have hne : p ≠ q := fun h => hqrest (h ▸ hp)
      rw [Resolve_Store_ne _ _ _ _ hne]
      exact hres p (List.mem_cons_of_mem _ hp)
    obtain ⟨w2, h1, h2, h3, h4, h5⟩ := ih _ hres2 (List.nodup_cons.mp hnd).2
    refine ⟨w2, by simp only [ApplyMaterialToMeshes.loop, hq, h1], ?_, ?_, ?_, ?_⟩
    · rw [h2]; simp [UWorld.Store]
    · rw [h3]; rfl
    · intro p hp
      have hne : p ≠ q := fun h => hp (h ▸ List.mem_cons_self _ _)
      rw [h4 p (fun h => hp (List.mem_cons_of_mem _ h)), Resolve_Store_ne _ _ _ _ hne]
    · intro p hp m hm
      rcases List.mem_cons.mp hp with h | h
      · subst h
        rw [h4 p hqrest, Resolve_Store_self _ _ _ _ hq]
        rw [hq] at hm
        cases hm
        rfl
      · have hne : p ≠ q := fun e => hqrest (e ▸ h)
        exact h5 p h m (by rw [Resolve_Store_ne _ _ _ _ hne]; exact hm)

/-- With an owner and the override instance, `ApplyMaterialToMeshes` returns, and every
slot of every mesh component of the owner then holds the instance. -/
theorem ApplyMaterialToMeshes_spec (c : USimpleSurfaceComponent) (w : UWorld) (Actor : Nat)
    (Material : UMaterialInstanceDynamic) (hOwner : c.Owner = some Actor)
    (hMat : c.SimpleSurfaceMaterial = some Material) :
    ∃ w2, c.ApplyMaterialToMeshes w = .ok w2 ∧
      w2.GetComponents Actor = w.GetComponents Actor ∧
      (∀ p, p ∉ w.GetComponents Actor → w2.Resolve p = w.Resolve p) ∧
      (∀ p ∈ w.GetComponents Actor, ∀ m, w.Resolve p = some m →
        w2.Resolve p = some (ApplyMaterialToMeshes.slots Material.Get m)) := by
  have hres : ∀ p ∈ w.GetComponents Actor, ∃ m, w.Resolve p = some m := by
    intro p hp
    obtain ⟨m, hm, -⟩ := (mem_GetComponents w Actor p).mp hp
    exact ⟨m, hm⟩
  obtain ⟨w2, h1, h2, -, h4, h5⟩ :=
    ApplyMaterialToMeshes_loop_spec Material.Get _ w hres (GetComponents_nodup w Actor)
  refine ⟨w2, by simp only [ApplyMaterialToMeshes, hOwner, hMat, h1], ?_, h4, h5⟩
  apply GetComponents_congr _ _ _ h2
  intro p
  by_cases hp : p ∈ w.GetComponents Actor
  · obtain ⟨m, hm⟩ := hres p hp
    rw [h5 p hp m hm, hm]
    simp [(slots_spec Material.Get m).1]
  · rw [h4 p hp]

/-! ### The catalog map -/

theorem mem_GetKeys_Add {V : Type} (Map : TMap Nat V) (p q : Nat) (v : V) :
    q ∈ TMap.GetKeys (TMap.Add Map p v) ↔ q = p ∨ q ∈ TMap.GetKeys Map := by
  induction Map with
  | nil => simp [TMap.Add, TMap.GetKeys]
  | cons e rest ih =>
    obtain ⟨k, x⟩ := e
    by_cases h : k = p
    · subst h
      simp [TMap.Add, TMap.GetKeys]
    · simp only [TMap.GetKeys] at ih
      simp only [TMap.Add, h, if_false, TMap.GetKeys, List.map_cons, List.mem_cons, ih]
      tauto

theorem CaptureMaterials_loop_keys
    (UpdateRecord : FMeshCatalogRecord → UMeshComponent → FMeshCatalogRecord)
    (Class : Option UClass) (w : UWorld) (ps : List Nat) (Catalog : TMap Nat FMeshCatalogRecord)
    (hres : ∀ p ∈ ps, ∃ m, w.Resolve p = some m) (q : Nat) :
    q ∈ TMap.GetKeys (CaptureMaterials.loop UpdateRecord Class w ps Catalog) ↔
      q ∈ TMap.GetKeys Catalog ∨ q ∈ ps := by
  induction ps generalizing Catalog with
  | nil => simp [CaptureMaterials.loop]
  | cons p rest ih =>
    obtain ⟨m, hm⟩ := hres p (List.mem_cons_self _ _)
    have hrest : ∀ p ∈ rest, ∃ m, w.Resolve p = some m :=
      fun r hr => hres r (List.mem_cons_of_mem _ hr)
    simp only [CaptureMaterials.loop, hm]
    cases hf : TMap.Find Catalog p with
    | none =>
      simp only [ih _ hrest, mem_GetKeys_Add, List.mem_cons]
      tauto
    | some Found =>
      simp only [ih _ hrest, mem_GetKeys_Add, List.mem_cons]
      tauto

/-! ### MonitorForChanges -/

theorem MonitorForChanges_slots_spec (Class : Option UClass) (m : UMeshComponent)
    (Slots : List Nat) (hnn : ∀ i ∈ Slots, m.GetMaterial i ≠ none) :
    ∃ r, MonitorForChanges.slots Class m Slots = .ok r ∧
      (r = true ↔ ∃ i ∈ Slots, ∃ x, m.GetMaterial i = some x ∧ x.IsA Class = false) := by
  induction Slots with
  | nil => exact ⟨false, rfl, by simp⟩
  | cons i rest ih =>
    obtain ⟨r, hr, hiff⟩ := ih (fun j hj => hnn j (List.mem_cons_of_mem _ hj))
    cases hg : m.GetMaterial i with
    | none => exact absurd hg (hnn i (List.mem_cons_self _ _))
    | some x =>
      cases hx : x.IsA Class with
      | false =>
        refine ⟨true, by simp [MonitorForChanges.slots, hg, hx], ?_⟩
        simp only [true_iff]
        exact ⟨i, List.mem_cons_self _ _, x, hg, hx⟩
      | true =>
        refine ⟨r, by simp [MonitorForChanges.slots, hg, hx, hr], ?_⟩
        rw [hiff]
        constructor
        · rintro ⟨j, hj, y, hy1, hy2⟩
          exact ⟨j, List.mem_cons_of_mem _ hj, y, hy1, hy2⟩
        · rintro ⟨j, hj, y, hy1, hy2⟩
          rcases List.mem_cons.mp hj with h | h
          · subst h
            rw [hg] at hy1
            cases hy1
            rw [hx] at hy2
            cases hy2
          · exact ⟨j, h, y, hy1, hy2⟩

theorem MonitorForChanges_loop_spec (Class : Option UClass) (w : UWorld) (ps : List Nat)
    (b : Bool)
    (hres : ∀ p ∈ ps, ∃ m, w.Resolve p = some m ∧
      ∀ i, i < m.GetNumMaterials → m.GetMaterial i ≠ none) :
    ∃ r, MonitorForChanges.loop Class w ps b = .ok r ∧
      (r = true ↔ b = true ∨ ∃ p ∈ ps, ∃ m, w.Resolve p = some m ∧
        m.HasOverrideMaterials = true ∧
        ∃ i, i < m.GetNumMaterials ∧ ∃ x, m.GetMaterial i = some x ∧ x.IsA Class = false) := by
  induction ps generalizing b with
  | nil => exact ⟨b, rfl, by simp⟩
  | cons p rest ih =>
    obtain ⟨m, hm, hnn⟩ := hres p (List.mem_cons_self _ _)
    have hrest : ∀ q ∈ rest, ∃ m, w.Resolve q = some m ∧
        ∀ i, i < m.GetNumMaterials → m.GetMaterial i ≠ none :=
      fun q hq => hres q (List.mem_cons_of_mem _ hq)
    cases ho : m.HasOverrideMaterials with
    | false =>
      obtain ⟨r, hr, hiff⟩ := ih b hrest
      refine ⟨r, by simp [MonitorForChanges.loop, hm, ho, hr], ?_⟩
      rw [hiff]
      constructor
      · rintro (h | ⟨q, hq, n, h1, h2, h3⟩)
        · exact Or.inl h
        · exact Or.inr ⟨q, List.mem_cons_of_mem _ hq, n, h1, h2, h3⟩
      · rintro (h | ⟨q, hq, n, h1, h2, h3⟩)
        · exact Or.inl h
        · rcases List.mem_cons.mp hq with e | e
          · subst e
            rw [hm] at h1
            cases h1
            rw [ho] at h2
            cases h2
          · exact Or.inr ⟨q, e, n, h1, h2, h3⟩
    | true =>
      obtain ⟨Found, hf, hfiff⟩ := MonitorForChanges_slots_spec Class m
        (List.range m.GetNumMaterials) (fun i hi => hnn i (List.mem_range.mp hi))
      by_cases hb : (b || Found) = true
      · refine ⟨true, by simp [MonitorForChanges.loop, hm, ho, hf, hb], ?_⟩
        simp only [true_iff]
        rcases Bool.or_eq_true_iff.mp hb with h | h
        · exact Or.inl h
        · obtain ⟨i, hi, x, hx1, hx2⟩ := hfiff.mp h
          exact Or.inr ⟨p, List.mem_cons_self _ _, m, hm, ho, i, List.mem_range.mp hi, x, hx1, hx2⟩
      · obtain ⟨r, hr, hiff⟩ := ih false hrest
        have hb2 : b = false ∧ Found = false := by
          cases b <;> cases Found <;> simp_all
        refine ⟨r, by simp [MonitorForChanges.loop, hm, ho, hf, hb2.1, hb2.2, hr], ?_⟩
        rw [hiff, hb2.1]
        constructor
        · rintro (h | ⟨q, hq, n, h1, h2, h3⟩)
          · cases h
          · exact Or.inr ⟨q, List.mem_cons_of_mem _ hq, n, h1, h2, h3⟩
        · rintro (h | ⟨q, hq, n, h1, h2, i, hi, x, hx1, hx2⟩)
          · cases h
          · rcases List.mem_cons.mp hq with e | e
            · subst e
              rw [hm] at h1
              cases h1
              have : Found = true := hfiff.mpr ⟨i, List.mem_range.mpr hi, x, hx1, hx2⟩
              rw [hb2.2] at this
              cases this
            · exact Or.inr ⟨q, e, n, h1, h2, i, hi, x, hx1, hx2⟩

theorem MonitorForChanges_of_count_ne (c : USimpleSurfaceComponent) (bForceUpdate : Bool)
    (w : UWorld) (Actor : Nat) (hOwner : c.Owner = some Actor)
    (hc : ((w.GetComponents Actor).length : Int) ≠ c.CapturedMeshComponentCount)
    (hnn : ∀ p ∈ w.GetComponents Actor, ∀ m, w.Resolve p = some m →
      ∀ i, i < m.GetNumMaterials → m.GetMaterial i ≠ none) :
    c.MonitorForChanges bForceUpdate w =
      .ok (true, { c with CapturedMeshComponentCount := ((w.GetComponents Actor).length : Int) }) := by
  have hres : ∀ p ∈ w.GetComponents Actor, ∃ m, w.Resolve p = some m ∧
      ∀ i, i < m.GetNumMaterials → m.GetMaterial i ≠ none := by
    intro p hp
    obtain ⟨m, hm, -⟩ := (mem_GetComponents w Actor p).mp hp
    exact ⟨m, hm, hnn p hp m hm⟩
  obtain ⟨r, hr, hiff⟩ :=
    MonitorForChanges_loop_spec c.SimpleSurfaceMaterialClass w _ true hres
  have hrt : r = true := hiff.mpr (Or.inl rfl)
  subst hrt
  unfold MonitorForChanges
  rw [hOwner]
  simp only []
  rw [if_pos hc]
  simp only [hr]

/-! ### Capture and apply -/

theorem ApplyParametersToMaterial_eq (c : USimpleSurfaceComponent)
    (m : UMaterialInstanceDynamic) (hm : c.SimpleSurfaceMaterial = some m) :
    ∃ m1, c.ApplyParametersToMaterial = .ok { c with SimpleSurfaceMaterial := some m1 } ∧
      m1.Get = m.Get ∧ m1.Outer = m.Outer := by
  simp only [ApplyParametersToMaterial, hm]
  exact ⟨_, rfl, rfl, rfl⟩

theorem CaptureMaterials_fields
    (UpdateRecord : FMeshCatalogRecord → UMeshComponent → FMeshCatalogRecord)
    (c : USimpleSurfaceComponent) (w : UWorld) :
    (c.CaptureMaterials UpdateRecord w).Owner = c.Owner ∧
    (c.CaptureMaterials UpdateRecord w).SimpleSurfaceMaterial = c.SimpleSurfaceMaterial ∧
    (c.CaptureMaterials UpdateRecord w).CapturedMeshComponentCount =
      c.CapturedMeshComponentCount := by
  unfold CaptureMaterials
  split <;> exact ⟨rfl, rfl, rfl⟩

theorem CaptureMaterials_keys
    (UpdateRecord : FMeshCatalogRecord → UMeshComponent → FMeshCatalogRecord)
    (c : USimpleSurfaceComponent) (w : UWorld) (Actor : Nat) (hOwner : c.Owner = some Actor)
    (hMat : c.SimpleSurfaceMaterial.isSome = true) (q : Nat) :
    q ∈ TMap.GetKeys (c.CaptureMaterials UpdateRecord w).CapturedMeshCatalog ↔
      q ∈ TMap.GetKeys c.CapturedMeshCatalog ∨ q ∈ w.GetComponents Actor := by
  obtain ⟨m, hm⟩ := Option.isSome_iff_exists.mp hMat
  have hres : ∀ p ∈ w.GetComponents Actor, ∃ m, w.Resolve p = some m := by
    intro p hp
    obtain ⟨m, hm, -⟩ := (mem_GetComponents w Actor p).mp hp
    exact ⟨m, hm⟩
  simp only [CaptureMaterials, hOwner, hm]
  exact CaptureMaterials_loop_keys UpdateRecord _ w _ _ hres q

theorem ApplyAll_spec (c : USimpleSurfaceComponent) (w : UWorld) (Actor : Nat)
    (m : UMaterialInstanceDynamic) (hOwner : c.Owner = some Actor)
    (hm : c.SimpleSurfaceMaterial = some m) :
    ∃ m1 w2, c.ApplyAll w = .ok ({ c with SimpleSurfaceMaterial := some m1 }, w2) ∧
      m1.Get = m.Get ∧
      w2.GetComponents Actor = w.GetComponents Actor ∧
      (∀ p, p ∉ w.GetComponents Actor → w2.Resolve p = w.Resolve p) ∧
      (∀ p ∈ w.GetComponents Actor, ∀ x, w.Resolve p = some x →
        w2.Resolve p = some (ApplyMaterialToMeshes.slots m.Get x)) := by
  obtain ⟨m1, h1, h2, -⟩ := ApplyParametersToMaterial_eq c m hm
  obtain ⟨w2, h3, h4, h5, h6⟩ := ApplyMaterialToMeshes_spec
    { c with SimpleSurfaceMaterial := some m1 } w Actor m1 hOwner rfl
  refine ⟨m1, w2, ?_, h2, h4, h5, ?_⟩
  · simp only [ApplyAll, hm, h1]
    show (do
      let c2 ← (Except.ok { c with SimpleSurfaceMaterial := some m1 } : Except Fault _)
      let w3 ← c2.ApplyMaterialToMeshes w
      pure (c2, w3)) = _
    simp only [bind, Except.bind, h3]
    rfl
  · intro p hp x hx
    rw [← h2]
    exact h6 p hp x hx

/-! ### Restore -/

theorem Find_eq_none {V : Type} (Map : TMap Nat V) (p : Nat) (h : p ∉ TMap.GetKeys Map) :
    TMap.Find Map p = none := by
  induction Map with
  | nil => rfl
  | cons e rest ih =>
    obtain ⟨k, x⟩ := e
    simp only [TMap.GetKeys, List.map_cons, List.mem_cons, not_or] at h
    simp only [TMap.Find, if_neg (Ne.symm h.1)]
    exact ih h.2

theorem Add_eq_append {V : Type} (Map : TMap Nat V) (p : Nat) (v : V)
    (h : p ∉ TMap.GetKeys Map) : TMap.Add Map p v = Map ++ [(p, v)] := by
  induction Map with
  | nil => rfl
  | cons e rest ih =>
    obtain ⟨k, x⟩ := e
    simp only [TMap.GetKeys, List.map_cons, List.mem_cons, not_or] at h
    simp only [TMap.Add, if_neg (Ne.symm h.1), List.cons_append]
    rw [ih h.2]

/-- Capture into a catalog that holds none of the enumerated components: one new record
per component, in order, and `UpdateRecord` is never reached. -/
theorem CaptureMaterials_loop_fresh
    (UpdateRecord : FMeshCatalogRecord → UMeshComponent → FMeshCatalogRecord)
    (Class : Option UClass) (w : UWorld) (ps : List Nat) (Catalog : TMap Nat FMeshCatalogRecord)
    (hres : ∀ p ∈ ps, ∃ m, w.Resolve p = some m) (hnd : ps.Nodup)
    (hdis : ∀ p ∈ ps, p ∉ TMap.GetKeys Catalog) :
    CaptureMaterials.loop UpdateRecord Class w ps Catalog =
      Catalog ++ ps.filterMap fun p =>
        (w.Resolve p).map fun m => (p, FMeshCatalogRecord.Construct m [Class]) := by
  induction ps generalizing Catalog with
  | nil => simp [CaptureMaterials.loop]
  | cons p rest ih =>
    obtain ⟨m, hm⟩ := hres p (List.mem_cons_self _ _)
    have hp := hdis p (List.mem_cons_self _ _)
    have hprest : p ∉ rest := (List.nodup_cons.mp hnd).1
    simp only [CaptureMaterials.loop, hm, Find_eq_none _ _ hp, Add_eq_append _ _ _ hp]
    rw [ih _ (fun r hr => hres r (List.mem_cons_of_mem _ hr)) (List.nodup_cons.mp hnd).2]
    · simp [List.filterMap_cons, hm]
    · intro r hr
      simp only [TMap.GetKeys, List.map_append, List.map_cons, List.map_nil, List.mem_append,
        List.mem_singleton, not_or]
      exact ⟨hdis r (List.mem_cons_of_mem _ hr), fun e => hprest (e ▸ hr)⟩

theorem GetKeys_captured (Class : Option UClass) (w : UWorld) (ps : List Nat)
    (hres : ∀ p ∈ ps, ∃ m, w.Resolve p = some m) :
    TMap.GetKeys (ps.filterMap fun p =>
      (w.Resolve p).map fun m => (p, FMeshCatalogRecord.Construct m [Class])) = ps := by
  induction ps with
  | nil => rfl
  | cons p rest ih =>
    obtain ⟨m, hm⟩ := hres p (List.mem_cons_self _ _)
    have := ih (fun r hr => hres r (List.mem_cons_of_mem _ hr))
    simp only [TMap.GetKeys] at this
    simp [List.filterMap_cons, hm, TMap.GetKeys, this]

theorem TryRestoreMaterials_loop_spec (Entries : List (Nat × FMeshCatalogRecord))
    (c : USimpleSurfaceComponent) (w : UWorld) (hnd : (TMap.GetKeys Entries).Nodup)
    (hres : ∀ e ∈ Entries, ∃ m, w.Resolve e.1 = some m) :
    ∃ w2, TryRestoreMaterials.loop Entries c w = .ok (c, w2) ∧
      w2.MeshComponents.length = w.MeshComponents.length ∧
      (∀ p, p ∉ TMap.GetKeys Entries → w2.Resolve p = w.Resolve p) ∧
      (∀ e ∈ Entries, ∀ m, w.Resolve e.1 = some m →
        w2.Resolve e.1 = some (e.2.ApplyMaterials m.EmptyOverrideMaterials)) := by
  induction Entries generalizing w with
  | nil => exact ⟨w, rfl, rfl, fun _ _ => rfl, fun e he => by simp at he⟩
  | cons e rest ih =>
    obtain ⟨q, Record⟩ := e
    obtain ⟨m, hm⟩ := hres (q, Record) (List.mem_cons_self _ _)
    simp only [TMap.GetKeys, List.map_cons, List.nodup_cons] at hnd
    have hs1 := Resolve_Store_self w q m m.EmptyOverrideMaterials hm
    have hs2 := Resolve_Store_self _ q _ (Record.ApplyMaterials m.EmptyOverrideMaterials) hs1
    have hother : ∀ r, r ≠ q →
        ((w.Store q m.EmptyOverrideMaterials).Store q
          (Record.ApplyMaterials m.EmptyOverrideMaterials)).Resolve r = w.Resolve r := by
      intro r hr
      rw [Resolve_Store_ne _ _ _ _ hr, Resolve_Store_ne _ _ _ _ hr]
    have hres2 : ∀ e ∈ rest, ∃ x,
        ((w.Store q m.EmptyOverrideMaterials).Store q
          (Record.ApplyMaterials m.EmptyOverrideMaterials)).Resolve e.1 = some x := by
      intro e he
      have hne : e.1 ≠ q := fun h => hnd.1 (h ▸ List.mem_map_of_mem Prod.fst he)
      rw [hother _ hne]
      exact hres e (List.mem_cons_of_mem _ he)
    obtain ⟨w2, h1, h2, h3, h4⟩ := ih _ hnd.2 hres2
    refine ⟨w2, by simp only [TryRestoreMaterials.loop, hm, hs1, h1], ?_, ?_, ?_⟩
    · rw [h2]; simp [UWorld.Store]
    · intro p hp
      simp only [TMap.GetKeys, List.map_cons, List.mem_cons, not_or] at hp
      rw [h3 p hp.2, hother p hp.1]
    · intro e he x hx
      rcases List.mem_cons.mp he with h | h
      · subst h
        rw [h3 q hnd.1, hs2]
        rw [hm] at hx
        cases hx
        rfl
      · have hne : e.1 ≠ q := fun e2 => hnd.1 (e2 ▸ List.mem_map_of_mem Prod.fst h)
        exact h4 e h x (by rw [hother _ hne]; exact hx)

/-- A record constructed from a component none of whose slots shows a material of the
ignored class holds every slot. -/
theorem Construct_all_slots (Class : Option UClass) (m : UMeshComponent)
    (hno : ∀ i, i < m.GetNumMaterials → ∀ x, m.GetMaterial i = some x → x.IsA Class = false) :
    (FMeshCatalogRecord.Construct m [Class]).MaterialsBySlot =
      (List.range m.GetNumMaterials).map fun i => (i, m.GetMaterial i) := by
  simp only [FMeshCatalogRecord.Construct]
  rw [← List.filterMap_eq_map]
  apply List.filterMap_congr
  intro i hi
  have hlt := List.mem_range.mp hi
  cases hg : m.GetMaterial i with
  | none => simp [hg]
  | some x => simp [hno i hlt x hg, hg]

theorem GetMaterial_eq_none (m : UMeshComponent) (i : Nat) (h : m.GetMaterial i = none) :
    (m.MeshMaterials[i]?).join = none := by
  unfold UMeshComponent.GetMaterial at h
  split at h
  · cases h
  · exact h

theorem GetMaterial_of_null_override (m : UMeshComponent) (i : Nat)
    (h : m.OverrideMaterials[i]? = some none) :
    m.GetMaterial i = (m.MeshMaterials[i]?).join := by
  simp [UMeshComponent.GetMaterial, h]

/-- Restoring a full record onto a component with the same mesh brings back every slot. -/
theorem ApplyMaterials_restores (Class : Option UClass) (m m2 : UMeshComponent)
    (hmesh : m2.MeshMaterials = m.MeshMaterials)
    (hno : ∀ i, i < m.GetNumMaterials → ∀ x, m.GetMaterial i = some x → x.IsA Class = false) :
    ((FMeshCatalogRecord.Construct m [Class]).ApplyMaterials m2.EmptyOverrideMaterials).Owner =
        m2.Owner ∧
      ((FMeshCatalogRecord.Construct m [Class]).ApplyMaterials
        m2.EmptyOverrideMaterials).GetNumMaterials = m.GetNumMaterials ∧
      ∀ i, i < m.GetNumMaterials →
        ((FMeshCatalogRecord.Construct m [Class]).ApplyMaterials
          m2.EmptyOverrideMaterials).GetMaterial i = m.GetMaterial i := by
  have hfold := foldl_SetMaterial_range m.GetMaterial m.GetNumMaterials m2.EmptyOverrideMaterials
  have heq : (FMeshCatalogRecord.Construct m [Class]).ApplyMaterials m2.EmptyOverrideMaterials =
      (List.range m.GetNumMaterials).foldl (fun acc i => acc.SetMaterial i (m.GetMaterial i))
        m2.EmptyOverrideMaterials := by
    simp only [FMeshCatalogRecord.ApplyMaterials, Construct_all_slots Class m hno, List.foldl_map]
  rw [heq]
  have hmm : ((List.range m.GetNumMaterials).foldl
      (fun acc i => acc.SetMaterial i (m.GetMaterial i)) m2.EmptyOverrideMaterials).MeshMaterials =
      m.MeshMaterials := by
    rw [hfold.2.1]
    exact hmesh
  refine ⟨hfold.1, congrArg List.length hmm, ?_⟩
  intro i hi
  have ho := hfold.2.2 i hi
  cases hg : m.GetMaterial i with
  | some x =>
    rw [hg] at ho
    exact GetMaterial_of_override _ _ _ ho
  | none =>
    rw [hg] at ho
    rw [GetMaterial_of_null_override _ _ ho, hmm]
    exact GetMaterial_eq_none m i hg

theorem slots_MeshMaterials (Material : UMaterialInterface) (m : UMeshComponent) :
    (ApplyMaterialToMeshes.slots Material m).MeshMaterials = m.MeshMaterials :=
  (foldl_SetMaterial_range (fun _ => some Material) m.GetNumMaterials m).2.1

theorem TryRestoreMaterials_of_owner (c : USimpleSurfaceComponent) (w : UWorld) (Actor : Nat)
    (h : c.Owner = some Actor) :
    c.TryRestoreMaterials w = TryRestoreMaterials.loop c.CapturedMeshCatalog c w := by
  unfold TryRestoreMaterials
  rw [h]

/-- Every slot of the two components of `Example.World` holds a material that is not a
dynamic instance. -/
theorem Example_World_slots (p : Nat) (hp : p ∈ Example.World.GetComponents 0)
    (m : UMeshComponent) (hm : Example.World.Resolve p = some m) (i : Nat)
    (hi : i < m.GetNumMaterials) :
    ∃ x, m.GetMaterial i = some x ∧
      x.IsA (some UMaterialInstanceDynamic.StaticClass) = false := by
  have h : Example.World.GetComponents 0 = [0, 1] := by decide
  rw [h] at hp
  simp only [List.mem_cons, List.mem_singleton, List.not_mem_nil, or_false] at hp
  rcases hp with rfl | rfl
  · have h2 : Example.World.Resolve 0 = some Example.ComponentA := by decide
    rw [h2] at hm
    cases hm
    have hi2 : i < 2 := hi
    interval_cases i
    · exact ⟨Example.Plain 10, by decide, by decide⟩
    · exact ⟨Example.Plain 11, by decide, by decide⟩
  · have h2 : Example.World.Resolve 1 = some Example.ComponentB := by decide
    rw [h2] at hm
    cases hm
    have hi2 : i < 1 := hi
    interval_cases i
    exact ⟨Example.Plain 12, by decide, by decide⟩

/-! ### Parameter setters -/

theorem GetParameterValue_SetParameterValue_same {V : Type} (Values : List (String × V))
    (n : String) (v : V) : GetParameterValue (SetParameterValue Values n v) n = some v := by
  induction Values with
  | nil => simp [SetParameterValue, GetParameterValue]
  | cons e rest ih =>
    obtain ⟨k, x⟩ := e
    by_cases h : k = n
    · simp [SetParameterValue, GetParameterValue, h]
    · simp [SetParameterValue, GetParameterValue, h, ih]

theorem GetParameterValue_SetParameterValue_other {V : Type} (Values : List (String × V))
    (n k : String) (v : V) (hne : n ≠ k) :
    GetParameterValue (SetParameterValue Values n v) k = GetParameterValue Values k := by
  induction Values with
  | nil => simp [SetParameterValue, GetParameterValue, hne]
  | cons e rest ih =>
    obtain ⟨j, x⟩ := e
    by_cases h : j = n
    · subst h
      simp [SetParameterValue, GetParameterValue, hne]
    · by_cases h2 : j = k
      · subst h2
        simp [SetParameterValue, GetParameterValue, h]
      · simp [SetParameterValue, GetParameterValue, h, h2, ih]

theorem ApplyParametersToMaterial_shows (c : USimpleSurfaceComponent)
    (h : c.SimpleSurfaceMaterial.isSome = true) :
    ∃ c2, c.ApplyParametersToMaterial = .ok c2 ∧ MaterialShowsFields c2 ∧
      ParameterFields c2 = ParameterFields c ∧ c2.SimpleSurfaceMaterial.isSome = true := by
  obtain ⟨m, hm⟩ := Option.isSome_iff_exists.mp h
  simp only [ApplyParametersToMaterial, hm]
  refine ⟨_, rfl, ⟨_, rfl, ?_⟩, rfl, rfl⟩
  simp [UMaterialInstanceDynamic.SetScalarParameterValue,
    UMaterialInstanceDynamic.SetVectorParameterValue,
    UMaterialInstanceDynamic.SetTextureParameterValue,
    GetParameterValue_SetParameterValue_same, GetParameterValue_SetParameterValue_other]

theorem SetterCall_invoke_spec (c : USimpleSurfaceComponent)
    (h : c.SimpleSurfaceMaterial.isSome = true) (Call : SetterCall) :
    ∃ c2, Call.invoke c = .ok c2 ∧ MaterialShowsFields c2 ∧
      c2.SimpleSurfaceMaterial.isSome = true ∧
      ParameterFields c2 =
        (match Call with
        | .Color v => (v, c.Glow, c.ShininessRoughness, c.WaxinessMetalness, c.Texture,
            c.TextureIntensity, c.TextureScale)
        | .Glow v => (c.Color, v, c.ShininessRoughness, c.WaxinessMetalness, c.Texture,
            c.TextureIntensity, c.TextureScale)
        | .ShininessRoughness v => (c.Color, c.Glow, v, c.WaxinessMetalness, c.Texture,
            c.TextureIntensity, c.TextureScale)
        | .WaxinessMetalness v => (c.Color, c.Glow, c.ShininessRoughness, v, c.Texture,
            c.TextureIntensity, c.TextureScale)
        | .Texture v => (c.Color, c.Glow, c.ShininessRoughness, c.WaxinessMetalness, v,
            c.TextureIntensity, c.TextureScale)
        | .TextureIntensity v => (c.Color, c.Glow, c.ShininessRoughness, c.WaxinessMetalness,
            c.Texture, v, c.TextureScale)
        | .TextureScale v => (c.Color, c.Glow, c.ShininessRoughness, c.WaxinessMetalness,
            c.Texture, c.TextureIntensity, v)) := by
  cases Call with
  | Color v =>
    obtain ⟨c2, h1, h2, h3, h4⟩ := ApplyParametersToMaterial_shows { c with Color := v } h
    exact ⟨c2, h1, h2, h4, h3⟩
  | Glow v =>
    obtain ⟨c2, h1, h2, h3, h4⟩ := ApplyParametersToMaterial_shows { c with Glow := v } h
    exact ⟨c2, h1, h2, h4, h3⟩
  | ShininessRoughness v =>
    obtain ⟨c2, h1, h2, h3, h4⟩ :=
      ApplyParametersToMaterial_shows { c with ShininessRoughness := v } h
    exact ⟨c2, h1, h2, h4, h3⟩
  | WaxinessMetalness v =>
    obtain ⟨c2, h1, h2, h3, h4⟩ :=
      ApplyParametersToMaterial_shows { c with WaxinessMetalness := v } h
    exact ⟨c2, h1, h2, h4, h3⟩
  | Texture v =>
    obtain ⟨c2, h1, h2, h3, h4⟩ := ApplyParametersToMaterial_shows { c with Texture := v } h
    exact ⟨c2, h1, h2, h4, h3⟩
  | TextureIntensity v =>
    obtain ⟨c2, h1, h2, h3, h4⟩ :=
      ApplyParametersToMaterial_shows { c with TextureIntensity := v } h
    exact ⟨c2, h1, h2, h4, h3⟩
  | TextureScale v =>
    obtain ⟨c2, h1, h2, h3, h4⟩ := ApplyParametersToMaterial_shows { c with TextureScale := v } h
    exact ⟨c2, h1, h2, h4, h3⟩

theorem CallSetters_append (c : USimpleSurfaceComponent) (Before After : List SetterCall) :
    CallSetters c (Before ++ After) =
      (match CallSetters c Before with
      | .error e => .error e
      | .ok c1 => CallSetters c1 After) := by
  induction Before generalizing c with
  | nil => rfl
  | cons Call rest ih =>
    simp only [List.cons_append, CallSetters]
    cases hc : Call.invoke c with
    | error e => rfl
    | ok c1 => exact ih c1

theorem CallSetters_ok (c : USimpleSurfaceComponent)
    (h : c.SimpleSurfaceMaterial.isSome = true) (Calls : List SetterCall) :
    ∃ c1, CallSetters c Calls = .ok c1 ∧ c1.SimpleSurfaceMaterial.isSome = true := by
  induction Calls generalizing c with
  | nil => exact ⟨c, rfl, h⟩
  | cons Call rest ih =>
    obtain ⟨c2, h1, -, h3, -⟩ := SetterCall_invoke_spec c h Call
    obtain ⟨c3, h4, h5⟩ := ih c2 h3
    exact ⟨c3, by simp only [CallSetters, h1, h4], h5⟩

/-- C1. With the override material instance in place, every sequence of setter calls
runs to its end, and after each call (`Call`, made after the calls `Before`) the override
material's seven named parameters are the controller's seven fields, the field just set
holding the argument and every other field the value it had before that call. -/
theorem setters_last_write_wins (c : USimpleSurfaceComponent)
    (h : c.SimpleSurfaceMaterial.isSome = true) (Before : List SetterCall) (Call : SetterCall) :
    ∃ c1 c2, CallSetters c Before = .ok c1 ∧ Call.invoke c1 = .ok c2 ∧
      CallSetters c (Before ++ [Call]) = .ok c2 ∧ MaterialShowsFields c2 ∧
      ParameterFields c2 =
        (match Call with
        | .Color v => (v, c1.Glow, c1.ShininessRoughness, c1.WaxinessMetalness, c1.Texture,
            c1.TextureIntensity, c1.TextureScale)
        | .Glow v => (c1.Color, v, c1.ShininessRoughness, c1.WaxinessMetalness, c1.Texture,
            c1.TextureIntensity, c1.TextureScale)
        | .ShininessRoughness v => (c1.Color, c1.Glow, v, c1.WaxinessMetalness, c1.Texture,
            c1.TextureIntensity, c1.TextureScale)
        | .WaxinessMetalness v => (c1.Color, c1.Glow, c1.ShininessRoughness, v, c1.Texture,
            c1.TextureIntensity, c1.TextureScale)
        | .Texture v => (c1.Color, c1.Glow, c1.ShininessRoughness, c1.WaxinessMetalness, v,
            c1.TextureIntensity, c1.TextureScale)
        | .TextureIntensity v => (c1.Color, c1.Glow, c1.ShininessRoughness,
            c1.WaxinessMetalness, c1.Texture, v, c1.TextureScale)
        | .TextureScale v => (c1.Color, c1.Glow, c1.ShininessRoughness, c1.WaxinessMetalness,
            c1.Texture, c1.TextureIntensity, v)) := by
  obtain ⟨c1, h1, h2⟩ := CallSetters_ok c h Before
  obtain ⟨c2, h3, h4, -, h6⟩ := SetterCall_invoke_spec c1 h2 Call
  refine ⟨c1, c2, h1, h3, ?_, h4, h6⟩
  rw [CallSetters_append, h1]
  simp only [CallSetters, h3]

/-- C1 at a concrete input: `Glow` set to 5, `Color` set, then `Glow` set to 7. -/
theorem setters_last_write_wins_witness :
    ∃ c1 c2, CallSetters Example.Controller
        [.Glow 5, .Color { R := 1, G := 2, B := 3, A := 4 }] = .ok c1 ∧
      (SetterCall.Glow 7).invoke c1 = .ok c2 ∧
      CallSetters Example.Controller
        ([.Glow 5, .Color { R := 1, G := 2, B := 3, A := 4 }] ++ [.Glow 7]) = .ok c2 ∧
      MaterialShowsFields c2 ∧
      ParameterFields c2 = (c1.Color, 7, c1.ShininessRoughness, c1.WaxinessMetalness,
        c1.Texture, c1.TextureIntensity, c1.TextureScale) :=
  setters_last_write_wins Example.Controller (by decide)
    [.Glow 5, .Color { R := 1, G := 2, B := 3, A := 4 }] (.Glow 7)

/-! ### C2: capture, apply, restore -/

/-- C2. Capture-then-restore round trip. On an actor whose mesh components show no
material of the override class in any slot, with the override instance in place and an
empty catalog, `Activate` returns and leaves the override instance in every slot of every
mesh component of the actor; `Deactivate` then returns, and every slot of every mesh
component of the actor shows the material it showed before `Activate` (the components of
the actor and all other objects of the store being the same as before). This holds
whatever `UpdateRecord` does, which is never reached from an empty catalog. -/
theorem Activate_Deactivate_round_trip
    (UpdateRecord : FMeshCatalogRecord → UMeshComponent → FMeshCatalogRecord)
    (c : USimpleSurfaceComponent) (w : UWorld) (Actor : Nat) (Material : UMaterialInstanceDynamic)
    (hOwner : c.Owner = some Actor) (hMat : c.SimpleSurfaceMaterial = some Material)
    (hCat : c.CapturedMeshCatalog = [])
    (hno : ∀ p ∈ w.GetComponents Actor, ∀ m, w.Resolve p = some m →
      ∀ i, i < m.GetNumMaterials → ∀ x, m.GetMaterial i = some x →
        x.IsA c.SimpleSurfaceMaterialClass = false) :
    ∃ c1 w1 c2 w2, Activate UpdateRecord c w = .ok (c1, w1) ∧
      (∀ p ∈ w1.GetComponents Actor, ∃ m1, w1.Resolve p = some m1 ∧
        ∀ i, i < m1.GetNumMaterials → m1.GetMaterial i = some Material.Get) ∧
      Deactivate c1 w1 = .ok (c2, w2) ∧
      w2.GetComponents Actor = w.GetComponents Actor ∧
      (∀ p ∈ w.GetComponents Actor, ∃ m m2, w.Resolve p = some m ∧ w2.Resolve p = some m2 ∧
        m2.GetNumMaterials = m.GetNumMaterials ∧
        ∀ i, i < m.GetNumMaterials → m2.GetMaterial i = m.GetMaterial i) ∧
      (∀ p, p ∉ w.GetComponents Actor → w2.Resolve p = w.Resolve p) := by
  have hres : ∀ p ∈ w.GetComponents Actor, ∃ m, w.Resolve p = some m := by
    intro p hp
    obtain ⟨m, hm, -⟩ := (mem_GetComponents w Actor p).mp hp
    exact ⟨m, hm⟩
  have hnd := GetComponents_nodup w Actor
  -- the capture
  have hcap : (c.CaptureMaterials UpdateRecord w).CapturedMeshCatalog =
      (w.GetComponents Actor).filterMap fun p =>
        (w.Resolve p).map fun m =>
          (p, FMeshCatalogRecord.Construct m [c.SimpleSurfaceMaterialClass]) := by
    simp only [CaptureMaterials, hOwner, hMat, hCat]
    rw [CaptureMaterials_loop_fresh UpdateRecord _ w _ [] hres hnd (fun _ _ => by simp [TMap.GetKeys])]
    rfl
  obtain ⟨hco, hcs, -⟩ := CaptureMaterials_fields UpdateRecord c w
  -- the apply
  obtain ⟨m1, w1, ha, -, hg1, hout1, hin1⟩ :=
    ApplyAll_spec (c.CaptureMaterials UpdateRecord w) w Actor Material (hco.trans hOwner)
      (hcs.trans hMat)
  have hkeys := GetKeys_captured c.SimpleSurfaceMaterialClass w _ hres
  -- the restore
  have hres1 : ∀ e ∈ (c.CaptureMaterials UpdateRecord w).CapturedMeshCatalog,
      ∃ m, w1.Resolve e.1 = some m := by
    intro e he
    have hk : e.1 ∈ w.GetComponents Actor := by
      rw [← hkeys, ← hcap]
      exact List.mem_map_of_mem Prod.fst he
    obtain ⟨m, hm⟩ := hres _ hk
    exact ⟨_, hin1 _ hk m hm⟩
  obtain ⟨w2, hr, hlen2, hout2, hin2⟩ := TryRestoreMaterials_loop_spec
    (c.CaptureMaterials UpdateRecord w).CapturedMeshCatalog
    { c.CaptureMaterials UpdateRecord w with SimpleSurfaceMaterial := some m1 } w1
    (by rw [hcap, hkeys]; exact hnd) hres1
  have hfinal : ∀ p ∈ w.GetComponents Actor, ∀ m, w.Resolve p = some m →
      w2.Resolve p = some ((FMeshCatalogRecord.Construct m
        [c.SimpleSurfaceMaterialClass]).ApplyMaterials
          (ApplyMaterialToMeshes.slots Material.Get m).EmptyOverrideMaterials) := by
    intro p hp m hm
    have hmem : (p, FMeshCatalogRecord.Construct m [c.SimpleSurfaceMaterialClass]) ∈
        (c.CaptureMaterials UpdateRecord w).CapturedMeshCatalog := by
      rw [hcap]
      exact List.mem_filterMap.mpr ⟨p, hp, by simp [hm]⟩
    exact hin2 _ hmem _ (hin1 p hp m hm)
  refine ⟨_, w1, { c.CaptureMaterials UpdateRecord w with SimpleSurfaceMaterial := some m1 },
    w2, ha, ?_, ?_, ?_, ?_, ?_⟩
  · intro p hp
    rw [hg1] at hp
    obtain ⟨m, hm⟩ := hres p hp
    refine ⟨_, hin1 p hp m hm, ?_⟩
    intro i hi
    rw [(slots_spec Material.Get m).2.1] at hi
    exact (slots_spec Material.Get m).2.2 i hi
  · have ho1 : ({ c.CaptureMaterials UpdateRecord w with
        SimpleSurfaceMaterial := some m1 } : USimpleSurfaceComponent).Owner = some Actor :=
      hco.trans hOwner
    unfold Deactivate
    rw [TryRestoreMaterials_of_owner _ w1 Actor ho1]
    exact hr
  · rw [← hg1]
    apply GetComponents_congr _ _ _ hlen2
    intro p
    by_cases hp : p ∈ w.GetComponents Actor
    · obtain ⟨m, hm⟩ := hres p hp
      rw [hfinal p hp m hm, hin1 p hp m hm]
      simp only [Option.map_some', Option.some.injEq]
      exact (ApplyMaterials_restores c.SimpleSurfaceMaterialClass m _
        (slots_MeshMaterials Material.Get m) (hno p hp m hm)).1
    · rw [hout2 p (by rw [hcap, hkeys]; exact hp)]
  · intro p hp
    obtain ⟨m, hm⟩ := hres p hp
    have hrest := ApplyMaterials_restores c.SimpleSurfaceMaterialClass m
      (ApplyMaterialToMeshes.slots Material.Get m) (slots_MeshMaterials Material.Get m)
      (hno p hp m hm)
    exact ⟨m, _, hm, hfinal p hp m hm, hrest.2.1, hrest.2.2⟩
  · intro p hp
    rw [hout2 p (by rw [hcap, hkeys]; exact hp), hout1 p hp]

/-- C2 at the actor `{A: [m0, m1], B: [m2]}`: after `Activate` and `Deactivate` component A
shows `[m0, m1]` and component B shows `[m2]`. -/
theorem Activate_Deactivate_round_trip_witness :
    ∃ c1 w1 c2 w2,
      Activate Example.KeepRecord Example.Controller Example.World = .ok (c1, w1) ∧
      Deactivate c1 w1 = .ok (c2, w2) ∧
      (∃ A, w2.Resolve 0 = some A ∧ A.GetNumMaterials = 2 ∧
        A.GetMaterial 0 = some (Example.Plain 10) ∧ A.GetMaterial 1 = some (Example.Plain 11)) ∧
      (∃ B, w2.Resolve 1 = some B ∧ B.GetNumMaterials = 1 ∧
        B.GetMaterial 0 = some (Example.Plain 12)) := by
  obtain ⟨c1, w1, c2, w2, h1, -, h3, -, h5, -⟩ :=
    Activate_Deactivate_round_trip Example.KeepRecord Example.Controller Example.World 0
      Example.Override rfl rfl rfl
      (fun p hp m hm i hi x hx => by
        obtain ⟨y, hy1, hy2⟩ := Example_World_slots p hp m hm i hi
        rw [hy1] at hx
        cases hx
        exact hy2)
  refine ⟨c1, w1, c2, w2, h1, h3, ?_, ?_⟩
  · obtain ⟨m, m2, hm, hm2, hn, hg⟩ := h5 0 (by decide)
    have h2 : Example.World.Resolve 0 = some Example.ComponentA := by decide
    rw [h2] at hm
    cases hm
    exact ⟨m2, hm2, hn, hg 0 (by decide), hg 1 (by decide)⟩
  · obtain ⟨m, m2, hm, hm2, hn, hg⟩ := h5 1 (by decide)
    have h2 : Example.World.Resolve 1 = some Example.ComponentB := by decide
    rw [h2] at hm
    cases hm
    exact ⟨m2, hm2, hn, hg 0 (by decide)⟩

/-! ### C3: the tick -/

/-- C3 fails as stated. The controller has an owner and its override instance, and the
one mesh component of the owner differs in number from the snapshot of 0; slot 0 of that
component, which has override materials, holds no material, and `TickComponent` aborts in
`MonitorForChanges` on the call through the null material pointer. -/
theorem TickComponent_null_slot_faults :
    Example.Controller.Owner = some 0 ∧
      Example.Controller.SimpleSurfaceMaterial = some Example.Override ∧
      ((Example.NullSlotWorld.GetComponents 0).length : Int) ≠
        Example.Controller.CapturedMeshComponentCount ∧
      TickComponent Example.KeepRecord Example.Controller Example.NullSlotWorld =
        .error .nullDereference := by
  decide

/-- C3, amended. With an owner, the override instance in place and a non-null material in
every slot of every mesh component of the owner: when the number of mesh components of the
owner differs from `CapturedMeshComponentCount` at the start of `TickComponent`, then
`MonitorForChanges` returns true in that tick, the tick re-captures and re-applies and
returns, and afterwards `CapturedMeshComponentCount` is the current number of mesh
components, every mesh component of the owner has a catalog entry, and every slot of
every mesh component of the owner holds this controller's override instance. -/
theorem TickComponent_recaptures
    (UpdateRecord : FMeshCatalogRecord → UMeshComponent → FMeshCatalogRecord)
    (c : USimpleSurfaceComponent) (w : UWorld) (Actor : Nat) (Material : UMaterialInstanceDynamic)
    (hOwner : c.Owner = some Actor) (hMat : c.SimpleSurfaceMaterial = some Material)
    (hCount : ((w.GetComponents Actor).length : Int) ≠ c.CapturedMeshComponentCount)
    (hnn : ∀ p ∈ w.GetComponents Actor, ∀ m, w.Resolve p = some m →
      ∀ i, i < m.GetNumMaterials → m.GetMaterial i ≠ none) :
    ∃ c1 c2 c3 w3, c.ApplyParametersToMaterial = .ok c1 ∧
      c1.MonitorForChanges false w = .ok (true, c2) ∧
      (c2.CaptureMaterials UpdateRecord w).ApplyAll w = .ok (c3, w3) ∧
      TickComponent UpdateRecord c w = .ok (c3, w3) ∧
      c3.CapturedMeshComponentCount = ((w3.GetComponents Actor).length : Int) ∧
      (∀ p ∈ w3.GetComponents Actor, p ∈ TMap.GetKeys c3.CapturedMeshCatalog) ∧
      (∀ p ∈ w3.GetComponents Actor, ∃ m, w3.Resolve p = some m ∧
        ∀ i, i < m.GetNumMaterials → m.GetMaterial i = some Material.Get) := by
  obtain ⟨m1, h1, hg1, -⟩ := ApplyParametersToMaterial_eq c Material hMat
  have h2 := MonitorForChanges_of_count_ne { c with SimpleSurfaceMaterial := some m1 } false w
    Actor hOwner hCount hnn
  obtain ⟨ho, hs, hk⟩ := CaptureMaterials_fields UpdateRecord
    { c with SimpleSurfaceMaterial := some m1,
             CapturedMeshComponentCount := ((w.GetComponents Actor).length : Int) } w
  obtain ⟨m2, w3, h3, hg2, h4, -, h6⟩ := ApplyAll_spec _ w Actor m1 (ho.trans hOwner) hs
  refine ⟨_, _, _, w3, h1, h2, h3, ?_, ?_, ?_, ?_⟩
  · simp only [TickComponent, h1, h2, if_true, h3]
  · show (CaptureMaterials UpdateRecord _ w).CapturedMeshComponentCount = _
    rw [hk, h4]
  · intro p hp
    rw [h4] at hp
    show p ∈ TMap.GetKeys (CaptureMaterials UpdateRecord _ w).CapturedMeshCatalog
    exact (CaptureMaterials_keys UpdateRecord
      { c with SimpleSurfaceMaterial := some m1,
               CapturedMeshComponentCount := ((w.GetComponents Actor).length : Int) }
      w Actor hOwner rfl p).mpr (Or.inr hp)
  · intro p hp
    rw [h4] at hp
    obtain ⟨m, hm, -⟩ := (mem_GetComponents w Actor p).mp hp
    refine ⟨_, h6 p hp m hm, ?_⟩
    intro i hi
    rw [(slots_spec m1.Get m).2.1] at hi
    rw [← hg1]
    exact (slots_spec m1.Get m).2.2 i hi

/-- C3, amended, at the actor `{A: [m0, m1], B: [m2]}` with a snapshot of 0. -/
theorem TickComponent_recaptures_witness :
    ∃ c3 w3, TickComponent Example.KeepRecord Example.Controller Example.World = .ok (c3, w3) ∧
      c3.CapturedMeshComponentCount = ((w3.GetComponents 0).length : Int) ∧
      (∀ p ∈ w3.GetComponents 0, p ∈ TMap.GetKeys c3.CapturedMeshCatalog) ∧
      (∀ p ∈ w3.GetComponents 0, ∃ m, w3.Resolve p = some m ∧
        ∀ i, i < m.GetNumMaterials → m.GetMaterial i = some Example.Override.Get) := by
  obtain ⟨c1, c2, c3, w3, -, -, -, h4, h5, h6, h7⟩ :=
    TickComponent_recaptures Example.KeepRecord Example.Controller Example.World 0
      Example.Override rfl rfl (by decide)
      (fun p hp m hm i hi => by
        obtain ⟨y, hy1, -⟩ := Example_World_slots p hp m hm i hi
        rw [hy1]
        exact Option.some_ne_none y)
  exact ⟨c3, w3, h4, h5, h6, h7⟩

/-! ### C4: the trigger of change detection -/

/-- C4 fails as stated. The owner has one mesh component and the snapshot is 1, so (a)
does not hold; the component has override materials and its only slot holds a material
that is not the controller's override material (it is the instance of another
controller), so (b) holds; yet `MonitorForChanges` returns false, because the slot is
tested for the class of the override material, not for the instance. -/
theorem MonitorForChanges_misses_foreign_instance :
    Example.Counted.Owner = some 0 ∧
      ((Example.ForeignWorld.GetComponents 0).length : Int) =
        Example.Counted.CapturedMeshComponentCount ∧
      Example.ForeignWorld.GetComponents 0 = [0] ∧
      (∃ m, Example.ForeignWorld.Resolve 0 = some m ∧ m.HasOverrideMaterials = true ∧
        m.GetNumMaterials = 1 ∧
        ∃ x, m.GetMaterial 0 = some x ∧
          some x ≠ Example.Counted.SimpleSurfaceMaterial.map UMaterialInstanceDynamic.Get) ∧
      Example.Counted.MonitorForChanges false Example.ForeignWorld =
        .ok (false, Example.Counted) := by
  refine ⟨rfl, by decide, by decide, ⟨_, rfl, by decide, by decide, _, rfl, by decide⟩, by decide⟩

/-- C4, amended. Without an owner `MonitorForChanges` returns false. With an owner whose
mesh slots all hold a non-null material it returns, and it returns true if and only if
(a) the number of mesh components of the owner differs from `CapturedMeshComponentCount`
at entry, or (b) some mesh component of the owner has override materials and has a slot
whose material is not of the class of the override material (`IsA` of
`SimpleSurfaceMaterial.GetClass()` is false). -/
theorem MonitorForChanges_trigger (c : USimpleSurfaceComponent) (bForceUpdate : Bool)
    (w : UWorld) :
    (c.Owner = none → c.MonitorForChanges bForceUpdate w = .ok (false, c)) ∧
    (∀ Actor, c.Owner = some Actor →
      (∀ p ∈ w.GetComponents Actor, ∀ m, w.Resolve p = some m →
        ∀ i, i < m.GetNumMaterials → m.GetMaterial i ≠ none) →
      ∃ r c2, c.MonitorForChanges bForceUpdate w = .ok (r, c2) ∧
        (r = true ↔
          ((w.GetComponents Actor).length : Int) ≠ c.CapturedMeshComponentCount ∨
          ∃ p ∈ w.GetComponents Actor, ∃ m, w.Resolve p = some m ∧
            m.HasOverrideMaterials = true ∧
            ∃ i, i < m.GetNumMaterials ∧ ∃ x, m.GetMaterial i = some x ∧
              x.IsA c.SimpleSurfaceMaterialClass = false)) := by
  refine ⟨fun h => by simp [MonitorForChanges, h], ?_⟩
  intro Actor hOwner hnn
  have hres : ∀ p ∈ w.GetComponents Actor, ∃ m, w.Resolve p = some m ∧
      ∀ i, i < m.GetNumMaterials → m.GetMaterial i ≠ none := by
    intro p hp
    obtain ⟨m, hm, -⟩ := (mem_GetComponents w Actor p).mp hp
    exact ⟨m, hm, hnn p hp m hm⟩
  by_cases hc : ((w.GetComponents Actor).length : Int) ≠ c.CapturedMeshComponentCount
  · refine ⟨true, _, MonitorForChanges_of_count_ne c bForceUpdate w Actor hOwner hc hnn, ?_⟩
    simp only [true_iff]
    exact Or.inl hc
  · obtain ⟨r, hr, hiff⟩ :=
      MonitorForChanges_loop_spec c.SimpleSurfaceMaterialClass w _ false hres
    refine ⟨r, c, ?_, ?_⟩
    · unfold MonitorForChanges
      rw [hOwner]
      simp only []
      rw [if_neg hc]
      simp only [hr]
    · rw [hiff]
      constructor
      · rintro (h | h)
        · cases h
        · exact Or.inr h
      · rintro (h | h)
        · exact absurd h hc
        · exact Or.inr h

/-- C4, amended, at concrete inputs: a controller without an owner, and the controller
with a snapshot of 1 on an actor whose one component has a second, uncovered slot. -/
theorem MonitorForChanges_trigger_witness :
    Example.Unowned.MonitorForChanges false Example.SwappedWorld =
        .ok (false, Example.Unowned) ∧
      ∃ r c2, Example.Counted.MonitorForChanges false Example.SwappedWorld = .ok (r, c2) ∧
        (r = true ↔
          ((Example.SwappedWorld.GetComponents 0).length : Int) ≠
              Example.Counted.CapturedMeshComponentCount ∨
            ∃ p ∈ Example.SwappedWorld.GetComponents 0, ∃ m,
              Example.SwappedWorld.Resolve p = some m ∧ m.HasOverrideMaterials = true ∧
              ∃ i, i < m.GetNumMaterials ∧ ∃ x, m.GetMaterial i = some x ∧
                x.IsA Example.Counted.SimpleSurfaceMaterialClass = false) :=
  ⟨(MonitorForChanges_trigger Example.Unowned false Example.SwappedWorld).1 rfl,
   (MonitorForChanges_trigger Example.Counted false Example.SwappedWorld).2 0 rfl
     (fun p hp m hm i hi => by
        have h : Example.SwappedWorld.GetComponents 0 = [0] := by decide
        rw [h] at hp
        simp only [List.mem_singleton] at hp
        subst hp
        have h2 : Example.SwappedWorld.Resolve 0 = some Example.SwappedComponent := by decide
        rw [h2] at hm
        cases hm
        have hi2 : i < 2 := hi
        interval_cases i <;> decide)⟩

/-! ### C5: restore and stale entries -/

theorem TryRestoreMaterials_loop_stale (Entries : List (Nat × FMeshCatalogRecord))
    (c : USimpleSurfaceComponent) (w : UWorld)
    (h : ∃ e ∈ Entries, w.Resolve e.1 = none) :
    TryRestoreMaterials.loop Entries c w = .error .nullDereference := by
  induction Entries generalizing c w with
  | nil => simp at h
  | cons e rest ih =>
    obtain ⟨q, Record⟩ := e
    cases hq : w.Resolve q with
    | none => simp [TryRestoreMaterials.loop, hq]
    | some m =>
      obtain ⟨e, he, hs⟩ := h
      have hne : e.1 ≠ q := by
        intro heq
        rw [heq, hq] at hs
        cases hs
      have hrest : e ∈ rest := by
        rcases List.mem_cons.mp he with h1 | h1
        · exact absurd (by rw [h1]) hne
        · exact h1
      simp only [TryRestoreMaterials.loop, hq, Resolve_Store_self w q m _ hq]
      apply ih
      exact ⟨e, hrest, by rw [Resolve_Store_ne _ _ _ _ hne, Resolve_Store_ne _ _ _ _ hne, hs]⟩

/-- C5, on the code. With an owner, a catalog entry whose mesh component no longer
resolves makes `TryRestoreMaterials` abort on a call through the stale pointer
(`EmptyOverrideMaterials` is called before the pointer is tested): it neither completes
nor purges the entry. -/
theorem TryRestoreMaterials_stale_entry_faults (c : USimpleSurfaceComponent) (w : UWorld)
    (hOwner : c.Owner.isSome = true)
    (h : ∃ e ∈ c.CapturedMeshCatalog, w.Resolve e.1 = none) :
    c.TryRestoreMaterials w = .error .nullDereference := by
  obtain ⟨a, ha⟩ := Option.isSome_iff_exists.mp hOwner
  simp only [TryRestoreMaterials, ha]
  exact TryRestoreMaterials_loop_stale _ c w h

/-- C5 at the failing input: the catalog holds the destroyed component at address 5. -/
theorem TryRestoreMaterials_stale_entry_faults_witness :
    Example.StaleCatalog.TryRestoreMaterials Example.World = .error .nullDereference :=
  TryRestoreMaterials_stale_entry_faults Example.StaleCatalog Example.World (by decide)
    ⟨(5, { MaterialsBySlot := [(0, some (Example.Plain 13))] }), by decide, by decide⟩

/-! ### C6: capture and the catalog keys -/

/-- C6, on the code. `CaptureMaterials` removes no catalog entry: every key of the
catalog before the call is a key after it, also a key whose component was destroyed or is
no longer attached to the owner (capture enumerates the components currently on the
owner, all of which resolve, so its purge is never reached). -/
theorem CaptureMaterials_keeps_keys
    (UpdateRecord : FMeshCatalogRecord → UMeshComponent → FMeshCatalogRecord)
    (c : USimpleSurfaceComponent) (w : UWorld) (p : Nat)
    (hp : p ∈ TMap.GetKeys c.CapturedMeshCatalog) :
    p ∈ TMap.GetKeys (c.CaptureMaterials UpdateRecord w).CapturedMeshCatalog := by
  cases ho : c.Owner with
  | none => simpa [CaptureMaterials, ho] using hp
  | some Actor =>
    cases hs : c.SimpleSurfaceMaterial with
    | none => simpa [CaptureMaterials, ho, hs] using hp
    | some Material =>
      exact (CaptureMaterials_keys UpdateRecord c w Actor ho (by simp [hs]) p).mpr (Or.inl hp)

/-- C6 at the failing input: the controller has its owner and its override instance, its
catalog holds the destroyed component at address 5, which is not among the mesh components
of the owner, and holds it still after `CaptureMaterials`. -/
theorem CaptureMaterials_keeps_keys_witness :
    Example.StaleCatalog.Owner = some 0 ∧
      Example.StaleCatalog.SimpleSurfaceMaterial.isSome = true ∧
      Example.World.Resolve 5 = none ∧
      5 ∉ Example.World.GetComponents 0 ∧
      5 ∈ TMap.GetKeys
        (Example.StaleCatalog.CaptureMaterials Example.KeepRecord Example.World).CapturedMeshCatalog :=
  ⟨rfl, rfl, by decide, by decide,
   CaptureMaterials_keeps_keys Example.KeepRecord Example.StaleCatalog Example.World 5
    (by decide)⟩

/-! ### C7: ownership of the override instance -/

/-- C7. After `InitializeSharedMID` the override material instance exists and its outer
is this controller. When the instance existed before with this controller as its outer,
the call changes nothing. When the instance was missing or had another outer, the instance
afterwards is the newly created one, and it is not the instance held before. -/
theorem InitializeSharedMID_ownership (c : USimpleSurfaceComponent) (w : UWorld) :
    (∃ m, (c.InitializeSharedMID w).1.SimpleSurfaceMaterial = some m ∧
      m.Outer = (c.InitializeSharedMID w).1.This ∧ (c.InitializeSharedMID w).1.This = c.This) ∧
    (∀ m, c.SimpleSurfaceMaterial = some m → m.Outer = c.This →
      c.InitializeSharedMID w = (c, w)) ∧
    ((c.SimpleSurfaceMaterial = none ∨
        ∃ m, c.SimpleSurfaceMaterial = some m ∧ m.Outer ≠ c.This) →
      (c.InitializeSharedMID w).1.SimpleSurfaceMaterial =
          some (UMaterialInstanceDynamic.Create c.BaseMaterial c.This w).1 ∧
        (c.InitializeSharedMID w).1.SimpleSurfaceMaterial ≠ c.SimpleSurfaceMaterial) := by
  cases hm : c.SimpleSurfaceMaterial with
  | none =>
    simp [InitializeSharedMID, hm, UMaterialInstanceDynamic.Create]
  | some m =>
    by_cases ho : m.Outer = c.This
    · simp [InitializeSharedMID, hm, ho]
    · simp only [InitializeSharedMID, hm, bne_iff_ne, ne_eq, ho, not_false_eq_true, ite_true,
        UMaterialInstanceDynamic.Create]
      refine ⟨⟨_, rfl, rfl, trivial⟩, ?_, ?_⟩
      · intro m2 h2 h3
        simp only [Option.some.injEq] at h2
        subst h2
        exact absurd h3 ho
      · intro _
        refine ⟨trivial, ?_⟩
        intro h
        simp only [Option.some.injEq] at h
        exact ho (by rw [← h])

/-- C7 at concrete inputs: the controller that owns its instance is left as it is, and the
duplicate at address 3, holding the instance of the controller at address 1, gets a newly
created instance of its own. -/
theorem InitializeSharedMID_ownership_witness :
    Example.Controller.InitializeSharedMID Example.World = (Example.Controller, Example.World) ∧
      (Example.Duplicate.InitializeSharedMID Example.World).1.SimpleSurfaceMaterial =
        some (UMaterialInstanceDynamic.Create Example.Duplicate.BaseMaterial
          Example.Duplicate.This Example.World).1 ∧
      (Example.Duplicate.InitializeSharedMID Example.World).1.SimpleSurfaceMaterial ≠
        Example.Duplicate.SimpleSurfaceMaterial :=
  ⟨(InitializeSharedMID_ownership Example.Controller Example.World).2.1 Example.Override rfl rfl,
   (InitializeSharedMID_ownership Example.Duplicate Example.World).2.2
     (Or.inr ⟨Example.Override, rfl, by decide⟩)⟩

/-! ### C8: the precondition checks -/

/-- C8 fails as stated. A controller with neither an owner nor an override instance:
`ApplyMaterialToMeshes` returns without an assertion, the owner being tested first. -/
theorem ApplyMaterialToMeshes_no_owner_no_check :
    Example.Unowned.SimpleSurfaceMaterial = none ∧
      Example.Unowned.ApplyMaterialToMeshes Example.World = .ok Example.World := by
  decide

/-- C8, amended. Without the override instance `ApplyParametersToMaterial` fails its
`check`, whatever the rest of the state; `ApplyMaterialToMeshes` fails its `check` when the
controller has an owner, and returns having done nothing when it has none. When the
override material exists, both of them return. -/
theorem check_SimpleSurfaceMaterial (c : USimpleSurfaceComponent) (w : UWorld) :
    (c.SimpleSurfaceMaterial = none →
      c.ApplyParametersToMaterial = .error .checkFailed ∧
      (c.Owner.isSome = true → c.ApplyMaterialToMeshes w = .error .checkFailed) ∧
      (c.Owner = none → c.ApplyMaterialToMeshes w = .ok w)) ∧
    (c.SimpleSurfaceMaterial.isSome = true →
      (∃ c2, c.ApplyParametersToMaterial = .ok c2) ∧
      ∃ w2, c.ApplyMaterialToMeshes w = .ok w2) := by
  constructor
  · intro hn
    refine ⟨by simp [ApplyParametersToMaterial, hn], ?_, ?_⟩
    · intro ho
      obtain ⟨a, ha⟩ := Option.isSome_iff_exists.mp ho
      simp [ApplyMaterialToMeshes, ha, hn]
    · intro ho
      simp [ApplyMaterialToMeshes, ho]
  · intro hs
    obtain ⟨m, hm⟩ := Option.isSome_iff_exists.mp hs
    obtain ⟨m1, h1, -⟩ := ApplyParametersToMaterial_eq c m hm
    refine ⟨⟨_, h1⟩, ?_⟩
    cases ho : c.Owner with
    | none => exact ⟨w, by simp [ApplyMaterialToMeshes, ho]⟩
    | some Actor =>
      obtain ⟨w2, h2, -⟩ := ApplyMaterialToMeshes_spec c w Actor m ho hm
      exact ⟨w2, h2⟩

/-- C8, amended, at concrete inputs: the controller on actor 0 without its override
instance fails both checks, and with it both calls return. -/
theorem check_SimpleSurfaceMaterial_witness :
    (({ Example.Controller with SimpleSurfaceMaterial := none } :
          USimpleSurfaceComponent).ApplyParametersToMaterial = .error .checkFailed ∧
        ({ Example.Controller with SimpleSurfaceMaterial := none } :
          USimpleSurfaceComponent).ApplyMaterialToMeshes Example.World = .error .checkFailed) ∧
      ((∃ c2, Example.Controller.ApplyParametersToMaterial = .ok c2) ∧
        ∃ w2, Example.Controller.ApplyMaterialToMeshes Example.World = .ok w2) :=
  ⟨⟨((check_SimpleSurfaceMaterial { Example.Controller with SimpleSurfaceMaterial := none }
        Example.World).1 rfl).1,
    ((check_SimpleSurfaceMaterial { Example.Controller with SimpleSurfaceMaterial := none }
        Example.World).1 rfl).2.1 rfl⟩,
   (check_SimpleSurfaceMaterial Example.Controller Example.World).2 rfl⟩

/-! ### C9: the recorded materials of UpdateComponentMaterialMap -/

/-- C9, on the code. The one mesh component of the owner is not yet a key of the map and
its slot shows the override instance: `UpdateComponentMaterialMap` records that material,
a material of the class of the override material, for slot 0 of the added component. -/
theorem UpdateComponentMaterialMap_records_override :
    Example.Controller.UpdateComponentMaterialMap Example.OverriddenWorld [] =
        .ok [(0, [(0, some Example.Override.Get)])] ∧
      Example.Override.Get.IsA Example.Controller.SimpleSurfaceMaterialClass = true := by
  decide

/-! ### C10: the force-update flag -/

/-- C10, amended. `MonitorForChanges` never reads `bForceUpdate`: in every state the
call with the flag set has the return value and the resulting controller of the call
with the flag clear. -/
theorem MonitorForChanges_ignores_bForceUpdate (c : USimpleSurfaceComponent) (w : UWorld) :
    c.MonitorForChanges true w = c.MonitorForChanges false w := rfl

/-- C10 fails as stated: there is no state in which the call with `bForceUpdate` set
differs, in return value or in resulting controller, from the call with it clear. -/
theorem MonitorForChanges_force_flag_no_effect :
    ¬ ∃ (c : USimpleSurfaceComponent) (w : UWorld),
      c.MonitorForChanges true w ≠ c.MonitorForChanges false w := by
  rintro ⟨c, w, h⟩
  exact h rfl

end SimpleSurface
